import Mathlib

/-!
Verification development for the MRP engine of the `mrp-mvp` repository
(`backend/mrp.py` and the dynamic reorder-point endpoint of `backend/main.py`).

Conventions of the shallow embedding:
* SQL `Numeric` / Python `Decimal` quantities are modelled as `ℚ`.
* Calendar dates are modelled as integers (a day ordinal); `date.today()`
  becomes an explicit `today : Int` parameter and `timedelta(days = k)`
  becomes integer addition.  Day ordinals are chosen so that day `0` is a
  Monday, matching Python's `date.weekday()` via `d % 7`.
* Python dicts are modelled as insertion-ordered association lists
  (`List (Int × α)`): assignment updates an existing key in place or appends
  a fresh key at the end, exactly as CPython dicts do.
* SQLAlchemy query results are modelled by filtering the snapshot lists held
  in a `DB` record; `.first()` is `List.find?`.
* Exceptions are modelled with `Except String`; the committed state of the
  `mrp_results` table is threaded explicitly so that commit/rollback
  behaviour around a raised exception is visible.
-/

set_option autoImplicit false

namespace MRP

/-! ## Python dict as an insertion-ordered association list -/

/-- `m.get(k)` / `m[k]`: first binding of `k`, if any. -/
def dictGet? {κ α : Type} [DecidableEq κ] (m : List (κ × α)) (k : κ) : Option α :=
  match m with
  | [] => none
  | (k₀, v) :: rest => if k₀ = k then some v else dictGet? rest k

/-- `m.get(k, d)`: lookup with a default. -/
def dictGetD {κ α : Type} [DecidableEq κ] (m : List (κ × α)) (k : κ) (d : α) : α :=
  (dictGet? m k).getD d

/-- `k in m`. -/
def dictMem {κ α : Type} [DecidableEq κ] (m : List (κ × α)) (k : κ) : Prop :=
  (dictGet? m k).isSome

instance {κ α : Type} [DecidableEq κ] (m : List (κ × α)) (k : κ) :
    Decidable (dictMem m k) := by
  unfold dictMem; infer_instance

/-- `m[k] = v`: replace the binding in place if the key exists, else append. -/
def dictSet {κ α : Type} [DecidableEq κ] (m : List (κ × α)) (k : κ) (v : α) :
    List (κ × α) :=
  match m with
  | [] => [(k, v)]
  | (k₀, v₀) :: rest =>
    if k₀ = k then (k, v) :: rest else (k₀, v₀) :: dictSet rest k v

/-- `m[k] = m.get(k, 0) + q` — the accumulation idiom used throughout `mrp.py`. -/
def dictAdd {κ : Type} [DecidableEq κ] (m : List (κ × ℚ)) (k : κ) (q : ℚ) :
    List (κ × ℚ) :=
  dictSet m k (dictGetD m k 0 + q)

theorem dictGet?_dictSet {κ α : Type} [DecidableEq κ] (m : List (κ × α)) (k x : κ) (v : α) :
    dictGet? (dictSet m k v) x = if k = x then some v else dictGet? m x := by
  induction m with
  | nil => by_cases h : k = x <;> simp [dictSet, dictGet?, h]
  | cons hd tl ih =>
    obtain ⟨k₀, v₀⟩ := hd
    by_cases h₀ : k₀ = k
    · subst h₀
      by_cases h : k₀ = x <;> simp [dictSet, dictGet?, h]
    · by_cases h : k₀ = x
      · subst h
        have : ¬ k = k₀ := fun hh => h₀ hh.symm
        simp [dictSet, dictGet?, h₀, this]
      · simp [dictSet, dictGet?, h₀, h, ih]

theorem dictGetD_dictAdd {κ : Type} [DecidableEq κ] (m : List (κ × ℚ)) (k x : κ) (q : ℚ) :
    dictGetD (dictAdd m k q) x 0
      = dictGetD m x 0 + (if k = x then q else 0) := by
  unfold dictAdd dictGetD
  rw [dictGet?_dictSet]
  by_cases h : k = x
  · subst h; simp [dictGetD]
  · simp [h]

theorem dictMem_dictSet {κ α : Type} [DecidableEq κ] (m : List (κ × α)) (k x : κ) (v : α) :
    dictMem (dictSet m k v) x ↔ (k = x ∨ dictMem m x) := by
  unfold dictMem
  rw [dictGet?_dictSet]
  by_cases h : k = x <;> simp [h]

theorem dictMem_dictAdd {κ : Type} [DecidableEq κ] (m : List (κ × ℚ)) (k x : κ) (q : ℚ) :
    dictMem (dictAdd m k q) x ↔ (k = x ∨ dictMem m x) := by
  unfold dictAdd; exact dictMem_dictSet m k x _

/-! ## Data model (backend/models.py)

Fields not consumed by the functions under verification (names, UoM,
timestamps, urgency thresholds, …) are omitted; every field read by
`mrp.py` or by the dynamic reorder-point endpoint is present. -/

/-- `models.Product`. -/
structure Product where
  id : Int
  ptype : String
  active : Bool
  lead_time_days : Int
  reorder_point : ℚ
  reorder_qty : ℚ
  safety_stock : ℚ
  order_multiple : ℚ
  minimum_order_qty : ℚ
deriving DecidableEq

/-- `models.BOMLine`. -/
structure BOMLine where
  parent_product_id : Int
  component_product_id : Int
  quantity_per : ℚ
deriving DecidableEq

/-- `models.Inventory`. -/
structure Inventory where
  product_id : Int
  on_hand : ℚ
deriving DecidableEq

/-- `models.DailyDemand`. -/
structure DailyDemand where
  product_id : Int
  demand_date : Int
  quantity : ℚ
deriving DecidableEq

/-- `models.PurchaseOrder`. -/
structure PurchaseOrder where
  product_id : Int
  expected_date : Int
  quantity : ℚ
  status : String
deriving DecidableEq

/-- `models.MRPResult` (the row written by `calculate_mrp`). -/
structure MRPResult where
  product_id : Int
  result_date : Int
  projected_onhand : ℚ
  needs_ordering : Bool
  shortage_date : Option Int
deriving DecidableEq

/-- `models.WeeklyShipment`. -/
structure WeeklyShipment where
  product_id : Int
  week_start_date : Int
  goal : ℚ
deriving DecidableEq

/-- A snapshot of the database tables the engine reads, together with the
committed contents of the `mrp_results` table. -/
structure DB where
  products : List Product
  bom_lines : List BOMLine
  inventory : List Inventory
  daily_demand : List DailyDemand
  purchase_orders : List PurchaseOrder
  weekly_shipments : List WeeklyShipment
  mrp_results : List MRPResult
deriving DecidableEq

/-- `db.query(Product).filter(Product.id == pid).first()`. -/
def findProduct (db : DB) (pid : Int) : Option Product :=
  db.products.find? (fun p => p.id == pid)

/-- `db.query(Inventory).filter(Inventory.product_id == pid).first()`. -/
def findInventory (db : DB) (pid : Int) : Option Inventory :=
  db.inventory.find? (fun i => i.product_id == pid)

/-! ## `MRPEngine.round_up_to_lot_size` (mrp.py lines 15–39) -/

/-- `MRPEngine.round_up_to_lot_size(qty, lot_size, minimum)`.

The Python body: return `0` for `qty <= 0`; raise `qty` to `minimum` when
`qty < minimum`; when `lot_size > 0` return `ceil(qty / lot_size) * lot_size`,
else return `qty`. -/
def round_up_to_lot_size (qty lot_size minimum : ℚ) : ℚ :=
  if qty ≤ 0 then 0
  else
    let qty₁ := if qty < minimum then minimum else qty
    if lot_size > 0 then (⌈qty₁ / lot_size⌉ : ℚ) * lot_size
    else qty₁

/-- The raise-to-minimum step is exactly `max`. -/
theorem raise_to_minimum_eq_max (qty minimum : ℚ) :
    (if qty < minimum then minimum else qty) = max qty minimum := by
  by_cases h : qty < minimum
  · simp [h, max_eq_right h.le]
  · simp [h, max_eq_left (le_of_not_lt h)]

/-- For a positive lot size, rounding up to the lot multiple dominates the
input quantity. -/
theorem le_ceil_mul (x L : ℚ) (hL : 0 < L) : x ≤ (⌈x / L⌉ : ℚ) * L := by
  have h := Int.le_ceil (x / L)
  exact (div_le_iff₀ hL).mp h

theorem round_up_of_nonpos (qty lot_size minimum : ℚ) (h : qty ≤ 0) :
    round_up_to_lot_size qty lot_size minimum = 0 := by
  simp [round_up_to_lot_size, h]

theorem round_up_of_pos_lot (qty lot_size minimum : ℚ) (hq : 0 < qty) (hL : 0 < lot_size) :
    round_up_to_lot_size qty lot_size minimum
      = (⌈max qty minimum / lot_size⌉ : ℚ) * lot_size := by
  rw [round_up_to_lot_size, if_neg (not_le.mpr hq)]
  simp only [raise_to_minimum_eq_max, gt_iff_lt, hL, if_true]

theorem round_up_of_nonpos_lot (qty lot_size minimum : ℚ) (hq : 0 < qty) (hL : ¬ 0 < lot_size) :
    round_up_to_lot_size qty lot_size minimum = max qty minimum := by
  rw [round_up_to_lot_size, if_neg (not_le.mpr hq)]
  simp only [raise_to_minimum_eq_max, gt_iff_lt, hL, if_false]

theorem max_le_round_up (qty lot_size minimum : ℚ) (hq : 0 < qty) :
    max qty minimum ≤ round_up_to_lot_size qty lot_size minimum := by
  by_cases hL : 0 < lot_size
  · rw [round_up_of_pos_lot qty lot_size minimum hq hL]
    exact le_ceil_mul _ _ hL
  · rw [round_up_of_nonpos_lot qty lot_size minimum hq hL]

/-- C6: `round_up_to_lot_size` returns `0` for `qty ≤ 0`; for positive `qty`
it first raises the quantity to `minimum_order_qty` and then, when
`order_multiple > 0`, rounds up to `ceil(qty / order_multiple) *
order_multiple`; Scenario D (`reorder_qty = 100`, `order_multiple = 30`,
`minimum_order_qty = 50`) yields a recommended order of `120`. -/
theorem C6_round_up_to_lot_size_spec :
    (∀ qty lot_size minimum : ℚ, qty ≤ 0 →
      round_up_to_lot_size qty lot_size minimum = 0) ∧
    (∀ qty lot_size minimum : ℚ, 0 < qty → 0 < lot_size →
      round_up_to_lot_size qty lot_size minimum
        = (⌈max qty minimum / lot_size⌉ : ℚ) * lot_size) ∧
    round_up_to_lot_size 100 30 50 = 120 := by
  refine ⟨round_up_of_nonpos, round_up_of_pos_lot, ?_⟩
  rw [round_up_of_pos_lot 100 30 50 (by norm_num) (by norm_num)]
  have hmax : max (100 : ℚ) 50 = 100 := by norm_num
  rw [hmax]
  have hdiv : (100 : ℚ) / 30 = 10 / 3 := by norm_num
  rw [hdiv]
  have hceil : ⌈(10 : ℚ) / 3⌉ = 4 := by
    rw [Int.ceil_eq_iff] ; norm_num
  rw [hceil]
  norm_num

/-- C6 witness: the theorem instantiated at `qty = -3` (zero branch) and the
Scenario D input. -/
theorem C6_round_up_to_lot_size_spec_witness :
    round_up_to_lot_size (-3) 30 50 = 0 ∧
    round_up_to_lot_size 2 30 50 = (⌈max (2 : ℚ) 50 / 30⌉ : ℚ) * 30 ∧
    round_up_to_lot_size 100 30 50 = 120 :=
  ⟨C6_round_up_to_lot_size_spec.1 (-3) 30 50 (by norm_num),
   C6_round_up_to_lot_size_spec.2.1 2 30 50 (by norm_num) (by norm_num),
   C6_round_up_to_lot_size_spec.2.2⟩

/-- C7: with `order_multiple` and `minimum_order_qty` fixed,
`round_up_to_lot_size` is non-decreasing in the quantity; for positive `qty`
its result is at least `max qty minimum` and, when `order_multiple > 0`, an
integer multiple of `order_multiple`. -/
theorem C7_round_up_to_lot_size_monotone :
    (∀ lot_size minimum q₁ q₂ : ℚ, q₁ ≤ q₂ →
      round_up_to_lot_size q₁ lot_size minimum
        ≤ round_up_to_lot_size q₂ lot_size minimum) ∧
    (∀ lot_size minimum qty : ℚ, 0 < qty →
      max qty minimum ≤ round_up_to_lot_size qty lot_size minimum) ∧
    (∀ lot_size minimum qty : ℚ, 0 < qty → 0 < lot_size →
      ∃ k : ℤ, round_up_to_lot_size qty lot_size minimum = (k : ℚ) * lot_size) := by
  refine ⟨?_, fun L m qty hq => max_le_round_up qty L m hq, ?_⟩
  · intro L m q₁ q₂ h
    by_cases h₁ : q₁ ≤ 0
    · rw [round_up_of_nonpos q₁ L m h₁]
      by_cases h₂ : q₂ ≤ 0
      · rw [round_up_of_nonpos q₂ L m h₂]
      · have h₂' : 0 < q₂ := not_le.mp h₂
        have := max_le_round_up q₂ L m h₂'
        have hq₂ : q₂ ≤ max q₂ m := le_max_left _ _
        linarith
    · have h₁' : 0 < q₁ := not_le.mp h₁
      have h₂' : 0 < q₂ := lt_of_lt_of_le h₁' h
      have hmax : max q₁ m ≤ max q₂ m := max_le_max h le_rfl
      by_cases hL : 0 < L
      · rw [round_up_of_pos_lot q₁ L m h₁' hL, round_up_of_pos_lot q₂ L m h₂' hL]
        have hdiv : max q₁ m / L ≤ max q₂ m / L := by gcongr
        have hceil : (⌈max q₁ m / L⌉ : ℤ) ≤ ⌈max q₂ m / L⌉ := Int.ceil_mono hdiv
        have hcast : ((⌈max q₁ m / L⌉ : ℤ) : ℚ) ≤ ((⌈max q₂ m / L⌉ : ℤ) : ℚ) := by
          exact_mod_cast hceil
        exact mul_le_mul_of_nonneg_right hcast hL.le
      · rw [round_up_of_nonpos_lot q₁ L m h₁' hL, round_up_of_nonpos_lot q₂ L m h₂' hL]
        exact hmax
  · intro L m qty hq hL
    exact ⟨⌈max qty m / L⌉, round_up_of_pos_lot qty L m hq hL⟩

/-- C7 witness: monotonicity at `10 ≤ 20`, the lower bound at `10`, and the
multiple property at `10`, all with `order_multiple = 30`,
`minimum_order_qty = 50`. -/
theorem C7_round_up_to_lot_size_monotone_witness :
    round_up_to_lot_size 10 30 50 ≤ round_up_to_lot_size 20 30 50 ∧
    max (10 : ℚ) 50 ≤ round_up_to_lot_size 10 30 50 ∧
    ∃ k : ℤ, round_up_to_lot_size 10 30 50 = (k : ℚ) * 30 :=
  ⟨C7_round_up_to_lot_size_monotone.1 30 50 10 20 (by norm_num),
   C7_round_up_to_lot_size_monotone.2.1 30 50 10 (by norm_num),
   C7_round_up_to_lot_size_monotone.2.2 30 50 10 (by norm_num) (by norm_num)⟩

/-! ## `MRPEngine.explode_bom_recursive` (mrp.py lines 60–95)

The Python function recurses through sub-assembly BOM edges and raises
`ValueError` once the recursion level exceeds 10.  The guard bounds the
recursion depth, so the embedding uses an explicit fuel counter that is
strictly larger than any depth the guard lets through; `explode_bom_recursive`
supplies enough fuel for the level it starts at, making the two presentations
coincide on every input.  The per-edge loop body is split into `explode_lines`
with the recursive call abstracted as `recur`. -/

/-- The `for line in bom_lines` loop body of `explode_bom_recursive`:
look up the component product, multiply the demand through the edge, and
either merge a recursive sub-assembly explosion or accumulate a leaf
requirement.  A missing component product is a data-integrity error
(Python would raise an `AttributeError` on `component.type`). -/
def explode_lines (db : DB) (recur : Int → ℚ → Nat → Except String (List (Int × ℚ)))
    (demand_qty : ℚ) (level : Nat) :
    List BOMLine → List (Int × ℚ) → Except String (List (Int × ℚ))
  | [], requirements => Except.ok requirements
  | line :: rest, requirements =>
    match findProduct db line.component_product_id with
    | none => Except.error "referenced component product not found"
    | some component =>
      let required_qty := demand_qty * line.quantity_per
      if component.ptype == "sub_assembly" then
        match recur component.id required_qty (level + 1) with
        | Except.error e => Except.error e
        | Except.ok sub_reqs =>
          explode_lines db recur demand_qty level rest
            (sub_reqs.foldl (fun req kv => dictAdd req kv.1 kv.2) requirements)
      else
        explode_lines db recur demand_qty level rest
          (dictAdd requirements component.id required_qty)

/-- Fuel-indexed form of `explode_bom_recursive`. -/
def explode_fuel (db : DB) : Nat → Int → ℚ → Nat → Except String (List (Int × ℚ))
  | 0, _, _, _ => Except.error "recursion fuel exhausted"
  | fuel + 1, product_id, demand_qty, level =>
    if level > 10 then
      Except.error "BOM nesting too deep (more than 10 levels)"
    else
      explode_lines db (fun pid q lv => explode_fuel db fuel pid q lv) demand_qty level
        (db.bom_lines.filter (fun l => l.parent_product_id == product_id)) []

/-- `MRPEngine.explode_bom_recursive(product_id, demand_qty, level)`.

The fuel `12 - min level 11` dominates the residual recursion depth admitted
by the `level > 10` guard, so the fuel never runs out before the guard fires:
the function returns exactly what the unbounded Python recursion returns. -/
def explode_bom_recursive (db : DB) (product_id : Int) (demand_qty : ℚ)
    (level : Nat := 0) : Except String (List (Int × ℚ)) :=
  explode_fuel db (12 - min level 11) product_id demand_qty level

/-- Per-path analogue of `explode_lines`: instead of merging quantities into
an accumulator dict, emit one `(leaf, contribution)` pair per root-to-leaf
path, in depth-first order. -/
def path_lines (db : DB) (recur : Int → ℚ → Nat → Except String (List (Int × ℚ)))
    (demand_qty : ℚ) (level : Nat) :
    List BOMLine → Except String (List (Int × ℚ))
  | [] => Except.ok []
  | line :: rest =>
    match findProduct db line.component_product_id with
    | none => Except.error "referenced component product not found"
    | some component =>
      let required_qty := demand_qty * line.quantity_per
      if component.ptype == "sub_assembly" then
        match recur component.id required_qty (level + 1) with
        | Except.error e => Except.error e
        | Except.ok sub_paths =>
          match path_lines db recur demand_qty level rest with
          | Except.error e => Except.error e
          | Except.ok rest_paths => Except.ok (sub_paths ++ rest_paths)
      else
        match path_lines db recur demand_qty level rest with
        | Except.error e => Except.error e
        | Except.ok rest_paths => Except.ok ((component.id, required_qty) :: rest_paths)

/-- Per-path contributions of the BOM explosion: entry `(leaf, c)` appears
once for every sub-assembly path from the root to `leaf`, and its
contribution `c` is the root demand multiplied by the `quantity_per` of each
edge along that path (one multiplication per recursion step). -/
def path_contribs_fuel (db : DB) : Nat → Int → ℚ → Nat → Except String (List (Int × ℚ))
  | 0, _, _, _ => Except.error "recursion fuel exhausted"
  | fuel + 1, product_id, demand_qty, level =>
    if level > 10 then
      Except.error "BOM nesting too deep (more than 10 levels)"
    else
      path_lines db (fun pid q lv => path_contribs_fuel db fuel pid q lv) demand_qty level
        (db.bom_lines.filter (fun l => l.parent_product_id == product_id))

/-- Sum of the contributions all paths make to one leaf. -/
def sumContribs (l : List (Int × ℚ)) (leaf : Int) : ℚ :=
  (l.map (fun kv => if kv.1 = leaf then kv.2 else 0)).sum

/-- Node `i` of a pure chain BOM of `n` sub-assembly levels: a finished good
at `0`, sub-assemblies at `1, …, n`, a leaf component at `n + 1`. -/
def chainProduct (n i : Nat) : Product where
  id := (i : Int)
  ptype := if i = 0 then "finished_good" else if i ≤ n then "sub_assembly" else "component"
  active := true
  lead_time_days := 0
  reorder_point := 0
  reorder_qty := 0
  safety_stock := 0
  order_multiple := 1
  minimum_order_qty := 0

/-- Edge `i → i + 1` of the chain BOM, with `quantity_per = 1`. -/
def chainEdge (i : Nat) : BOMLine where
  parent_product_id := (i : Int)
  component_product_id := (i : Int) + 1
  quantity_per := 1

/-- A pure chain BOM database with `n` levels of sub-assembly nesting. -/
def chainDB (n : Nat) : DB where
  products := (List.range (n + 2)).map (chainProduct n)
  bom_lines := (List.range (n + 1)).map chainEdge
  inventory := []
  daily_demand := []
  purchase_orders := []
  weekly_shipments := []
  mrp_results := []

/-! ### List helper lemmas for `find?` and `filter` over an enumerated range -/

theorem find?_append_some {α : Type} (pred : α → Bool) (l₁ l₂ : List α) (a : α)
    (h : l₁.find? pred = some a) : (l₁ ++ l₂).find? pred = some a := by
  rw [List.find?_append, h]; rfl

theorem find?_append_none {α : Type} (pred : α → Bool) (l₁ l₂ : List α)
    (h : l₁.find? pred = none) : (l₁ ++ l₂).find? pred = l₂.find? pred := by
  rw [List.find?_append, h]; rfl

/-- `find?` over `f 0, f 1, …, f (m-1)` when the predicate picks out exactly
index `i`. -/
theorem range_map_find? {β : Type} (f : Nat → β) (pred : β → Bool) :
    ∀ (m i : Nat), i < m → (∀ j, j < m → (pred (f j) = true ↔ j = i)) →
      ((List.range m).map f).find? pred = some (f i) := by
  intro m
  induction m with
  | zero => intro i hi _; omega
  | succ m ih =>
    intro i hi hmatch
    rw [List.range_succ, List.map_append]
    by_cases him : i < m
    · exact find?_append_some _ _ _ _ (ih i him (fun j hj => hmatch j (by omega)))
    · have hi' : i = m := by omega
      subst hi'
      have h₁ : ((List.range i).map f).find? pred = none := by
        rw [List.find?_eq_none]
        intro b hb hpred
        obtain ⟨j, hj, rfl⟩ := List.mem_map.mp hb
        have hjm : j < i := List.mem_range.mp hj
        have := (hmatch j (by omega)).mp hpred
        omega
      rw [find?_append_none _ _ _ h₁]
      have hpi : pred (f i) = true := (hmatch i (by omega)).mpr rfl
      simp [List.find?, hpi]

/-- `filter` over `f 0, f 1, …, f (m-1)` when the predicate picks out exactly
index `i`. -/
theorem range_map_filter {β : Type} (f : Nat → β) (pred : β → Bool) :
    ∀ (m i : Nat), i < m → (∀ j, j < m → (pred (f j) = true ↔ j = i)) →
      ((List.range m).map f).filter pred = [f i] := by
  intro m
  induction m with
  | zero => intro i hi _; omega
  | succ m ih =>
    intro i hi hmatch
    rw [List.range_succ, List.map_append, List.filter_append]
    by_cases him : i < m
    · have h₁ := ih i him (fun j hj => hmatch j (by omega))
      have hfalse : pred (f m) = false := by
        cases hpm : pred (f m) with
        | false => rfl
        | true => exact absurd ((hmatch m (by omega)).mp hpm) (by omega)
      have h₂ : (List.map f [m]).filter pred = [] := by
        simp [List.filter, hfalse]
      rw [h₁, h₂, List.append_nil]
    · have hi' : i = m := by omega
      subst hi'
      have h₁ : ((List.range i).map f).filter pred = [] := by
        rw [List.filter_eq_nil_iff]
        intro b hb hpred
        obtain ⟨j, hj, rfl⟩ := List.mem_map.mp hb
        have hjm : j < i := List.mem_range.mp hj
        have := (hmatch j (by omega)).mp hpred
        omega
      have hpi : pred (f i) = true := (hmatch i (by omega)).mpr rfl
      rw [h₁]
      simp [List.filter, hpi]

theorem chainDB_findProduct (n j : Nat) (hj : j < n + 2) :
    findProduct (chainDB n) ((j : Nat) : Int) = some (chainProduct n j) := by
  unfold findProduct chainDB
  apply range_map_find? (chainProduct n) _ (n + 2) j hj
  intro j' hj'
  simp [chainProduct]

theorem chainDB_filter (n i : Nat) (hi : i < n + 1) :
    (chainDB n).bom_lines.filter (fun l => l.parent_product_id == (i : Int))
      = [chainEdge i] := by
  unfold chainDB
  apply range_map_filter chainEdge _ (n + 1) i hi
  intro j hj
  simp [chainEdge]

/-- A product returned by `findProduct db pid` carries the queried id. -/
theorem findProduct_id (db : DB) (pid : Int) (c : Product)
    (h : findProduct db pid = some c) : c.id = pid := by
  have := List.find?_some h
  simpa using this

/-- If some line of the loop is doomed — its component product is missing, or
it is a sub-assembly whose recursive explosion fails — then the whole loop
fails, whatever the accumulator. -/
theorem explode_lines_error_of_mem (db : DB)
    (recur : Int → ℚ → Nat → Except String (List (Int × ℚ)))
    (dq : ℚ) (level : Nat) :
    ∀ (lines : List BOMLine) (acc : List (Int × ℚ)) (line : BOMLine),
      line ∈ lines →
      (findProduct db line.component_product_id = none ∨
        ∃ c, findProduct db line.component_product_id = some c ∧
          c.ptype = "sub_assembly" ∧
          ∀ q₀, ∃ e, recur c.id q₀ (level + 1) = Except.error e) →
      ∃ e, explode_lines db recur dq level lines acc = Except.error e := by
  intro lines
  induction lines with
  | nil => intro acc line h; cases h
  | cons head rest ih =>
    intro acc line hmem hline
    rcases List.mem_cons.mp hmem with heq | hrest
    · subst heq
      rcases hline with hnone | ⟨c, hc, hsub, herr⟩
      · exact ⟨"referenced component product not found",
          by simp [explode_lines, hnone]⟩
      · obtain ⟨e, he⟩ := herr (dq * line.quantity_per)
        exact ⟨e, by simp [explode_lines, hc, hsub, he]⟩
    · cases hfind : findProduct db head.component_product_id with
      | none => exact ⟨"referenced component product not found",
          by simp [explode_lines, hfind]⟩
      | some comp =>
        by_cases hsub : comp.ptype = "sub_assembly"
        · cases hrec : recur comp.id (dq * head.quantity_per) (level + 1) with
          | error e => exact ⟨e, by simp [explode_lines, hfind, hsub, hrec]⟩
          | ok sub_reqs =>
            obtain ⟨e, he⟩ := ih
              (List.foldl (fun req kv => dictAdd req kv.1 kv.2) acc sub_reqs)
              line hrest hline
            exact ⟨e, by simp [explode_lines, hfind, hsub, hrec, he]⟩
        · obtain ⟨e, he⟩ := ih (dictAdd acc comp.id (dq * head.quantity_per))
            line hrest hline
          exact ⟨e, by simp [explode_lines, hfind, hsub, he]⟩

/-- If the database holds a chain of `k` sub-assembly edges below the root and
the starting level leaves fewer than `k` levels before the depth guard, the
explosion fails, whatever the fuel. -/
theorem explode_fuel_chain_error (db : DB) :
    ∀ (k : Nat) (p : Nat → Int) (fuel level : Nat) (q : ℚ),
      10 < level + k →
      (∀ i, i < k →
        (∃ line ∈ db.bom_lines, line.parent_product_id = p i ∧
          line.component_product_id = p (i + 1)) ∧
        (∃ c, findProduct db (p (i + 1)) = some c ∧ c.ptype = "sub_assembly")) →
      ∃ e, explode_fuel db fuel (p 0) q level = Except.error e := by
  intro k
  induction k with
  | zero =>
    intro p fuel level q hlt _
    cases fuel with
    | zero => exact ⟨_, rfl⟩
    | succ f =>
      have hlv : level > 10 := by omega
      exact ⟨"BOM nesting too deep (more than 10 levels)",
        by simp [explode_fuel, hlv]⟩
  | succ k ih =>
    intro p fuel level q hlt hchain
    cases fuel with
    | zero => exact ⟨_, rfl⟩
    | succ f =>
      by_cases hlv : level > 10
      · exact ⟨"BOM nesting too deep (more than 10 levels)",
          by simp [explode_fuel, hlv]⟩
      · obtain ⟨⟨line, hmem, hpar, hcomp⟩, ⟨c, hc, hsub⟩⟩ := hchain 0 (Nat.succ_pos k)
        have hcid : c.id = p 1 := findProduct_id db _ c hc
        have hfilter : line ∈ db.bom_lines.filter
            (fun l => l.parent_product_id == p 0) :=
          List.mem_filter.mpr ⟨hmem, by simp [hpar]⟩
        have herr : ∀ q₀, ∃ e,
            explode_fuel db f c.id q₀ (level + 1) = Except.error e := by
          intro q₀
          rw [hcid]
          exact ih (fun i => p (i + 1)) f (level + 1) q₀ (by omega)
            (fun i hi => hchain (i + 1) (by omega))
        obtain ⟨e, he⟩ := explode_lines_error_of_mem db
          (fun pid q₀ lv => explode_fuel db f pid q₀ lv) q level
          (db.bom_lines.filter (fun l => l.parent_product_id == p 0)) [] line hfilter
          (Or.inr ⟨c, by rw [hcomp]; exact hc, hsub, herr⟩)
        exact ⟨e, by simp [explode_fuel, hlv, he]⟩

/-- Walking down a pure chain of at most 10 sub-assembly levels succeeds:
at node `i` (at recursion level `i`) with `d` levels left to the deepest
sub-assembly, the explosion returns normally. -/
theorem explode_fuel_chain_ok (n : Nat) (hn : n ≤ 10) :
    ∀ (d i fuel : Nat) (q : ℚ), i + d = n → 11 - i < fuel →
      ∃ m, explode_fuel (chainDB n) fuel ((i : Nat) : Int) q i = Except.ok m := by
  intro d
  induction d with
  | zero =>
    intro i fuel q hid hfuel
    obtain ⟨f, rfl⟩ : ∃ f, fuel = f + 1 := ⟨fuel - 1, by omega⟩
    have hlv : ¬ (i > 10) := by omega
    have hfilter := chainDB_filter n i (by omega)
    have hfind := chainDB_findProduct n (i + 1) (by omega)
    have hcast : (((i + 1 : Nat)) : Int) = ((i : Nat) : Int) + 1 := by push_cast; ring
    have hptype : (chainProduct n (i + 1)).ptype = "component" := by
      simp only [chainProduct]
      rw [if_neg (by omega), if_neg (by omega)]
    refine ⟨dictAdd [] (chainProduct n (i + 1)).id (q * (chainEdge i).quantity_per), ?_⟩
    simp only [explode_fuel]
    rw [if_neg hlv, hfilter]
    simp only [explode_lines]
    have hce : (chainEdge i).component_product_id = ((i : Nat) : Int) + 1 := rfl
    rw [hce, ← hcast, hfind]
    simp [hptype, explode_lines]
  | succ d ih =>
    intro i fuel q hid hfuel
    obtain ⟨f, rfl⟩ : ∃ f, fuel = f + 1 := ⟨fuel - 1, by omega⟩
    have hlv : ¬ (i > 10) := by omega
    have hfilter := chainDB_filter n i (by omega)
    have hfind := chainDB_findProduct n (i + 1) (by omega)
    have hcast : (((i + 1 : Nat)) : Int) = ((i : Nat) : Int) + 1 := by push_cast; ring
    have hptype : (chainProduct n (i + 1)).ptype = "sub_assembly" := by
      simp only [chainProduct]
      rw [if_neg (by omega), if_pos (by omega)]
    obtain ⟨m', hm'⟩ := ih (i + 1) f (q * (chainEdge i).quantity_per) (by omega) (by omega)
    refine ⟨List.foldl (fun req kv => dictAdd req kv.1 kv.2) [] m', ?_⟩
    simp only [explode_fuel]
    rw [if_neg hlv, hfilter]
    simp only [explode_lines]
    have hce : (chainEdge i).component_product_id = ((i : Nat) : Int) + 1 := rfl
    rw [hce, ← hcast, hfind]
    have hid' : (chainProduct n (i + 1)).id = ((i + 1 : Nat) : Int) := rfl
    rw [hcast] at hm'
    simp [hptype, hid', hm', explode_lines]

/-- C4: BOM explosion raises the depth-exceeded error exactly when recursion
depth exceeds 10.  First half: whenever the database holds 11 nested
sub-assembly levels below the root (products `p 1 … p 11`, all of type
`sub_assembly`, linked by BOM edges), exploding the root raises the error.
Second half: on the pure 10-level chain the explosion returns normally. -/
theorem C4_depth_guard :
    (∀ (db : DB) (p : Nat → Int) (q : ℚ),
      (∀ i, i < 11 →
        (∃ line ∈ db.bom_lines, line.parent_product_id = p i ∧
          line.component_product_id = p (i + 1)) ∧
        (∃ c, findProduct db (p (i + 1)) = some c ∧ c.ptype = "sub_assembly")) →
      ∃ e, explode_bom_recursive db (p 0) q 0 = Except.error e) ∧
    (∀ q : ℚ, ∃ m, explode_bom_recursive (chainDB 10) 0 q 0 = Except.ok m) := by
  constructor
  · intro db p q hchain
    have h := explode_fuel_chain_error db 11 p 12 0 q (by omega) hchain
    simpa [explode_bom_recursive] using h
  · intro q
    have h := explode_fuel_chain_ok 10 (by omega) 10 0 12 q (by omega) (by omega)
    simpa [explode_bom_recursive] using h

/-- C4 witness: the failure half applied to the pure 11-level chain with unit
demand, and the success half at unit demand. -/
theorem C4_depth_guard_witness :
    (∃ e, explode_bom_recursive (chainDB 11) 0 1 0 = Except.error e) ∧
    (∃ m, explode_bom_recursive (chainDB 10) 0 1 0 = Except.ok m) := by
  constructor
  · have h := C4_depth_guard.1 (chainDB 11) (fun i => ((i : Nat) : Int)) 1 ?_
    · simpa using h
    · intro i hi
      constructor
      · refine ⟨chainEdge i, ?_, rfl, ?_⟩
        · exact List.mem_map_of_mem chainEdge (List.mem_range.mpr (by omega))
        · show ((i : Nat) : Int) + 1 = ((i + 1 : Nat) : Int)
          push_cast; ring
      · refine ⟨chainProduct 11 (i + 1), chainDB_findProduct 11 (i + 1) (by omega), ?_⟩
        simp only [chainProduct]
        rw [if_neg (by omega), if_pos (by omega)]
  · exact C4_depth_guard.2 1

/-! ### Dictionary lemmas used by the explosion/aggregation proofs -/

theorem dictMem_iff_mem_keys {κ α : Type} [DecidableEq κ] (m : List (κ × α)) (k : κ) :
    dictMem m k ↔ k ∈ m.map Prod.fst := by
  induction m with
  | nil => simp [dictMem, dictGet?]
  | cons hd tl ih =>
    obtain ⟨k₀, v₀⟩ := hd
    by_cases h : k₀ = k
    · subst h; simp [dictMem, dictGet?]
    · simp [dictMem, dictGet?, h, Ne.symm h] at ih ⊢
      exact ih

theorem dictGet?_eq_none_of_not_mem {κ α : Type} [DecidableEq κ]
    (m : List (κ × α)) (k : κ) (h : ¬ dictMem m k) : dictGet? m k = none := by
  unfold dictMem at h
  exact Option.not_isSome_iff_eq_none.mp h

theorem dictGet?_eq_some_getD {κ α : Type} [DecidableEq κ]
    (m : List (κ × α)) (k : κ) (d : α) (h : dictMem m k) :
    dictGet? m k = some (dictGetD m k d) := by
  unfold dictMem at h
  obtain ⟨v, hv⟩ := Option.isSome_iff_exists.mp h
  rw [hv]; simp [dictGetD, hv]

theorem dictKeys_nodup_dictSet {κ α : Type} [DecidableEq κ]
    (m : List (κ × α)) (k : κ) (v : α) (h : (m.map Prod.fst).Nodup) :
    ((dictSet m k v).map Prod.fst).Nodup := by
  induction m with
  | nil => simp [dictSet]
  | cons hd tl ih =>
    obtain ⟨k₀, v₀⟩ := hd
    simp only [List.map_cons, List.nodup_cons] at h
    by_cases h₀ : k₀ = k
    · subst h₀; simp [dictSet, List.nodup_cons, h.1, h.2]
    · simp only [dictSet, h₀, if_false, List.map_cons, List.nodup_cons]
      refine ⟨?_, ih h.2⟩
      intro hmem
      have := (dictMem_iff_mem_keys (dictSet tl k v) k₀).mpr hmem
      rcases (dictMem_dictSet tl k k₀ v).mp this with heq | hmem'
      · exact h₀ heq.symm
      · exact h.1 ((dictMem_iff_mem_keys tl k₀).mp hmem')

theorem sumContribs_nil (leaf : Int) : sumContribs [] leaf = 0 := rfl

theorem sumContribs_cons (kv : Int × ℚ) (t : List (Int × ℚ)) (leaf : Int) :
    sumContribs (kv :: t) leaf
      = (if kv.1 = leaf then kv.2 else 0) + sumContribs t leaf := by
  simp [sumContribs]

theorem sumContribs_append (s t : List (Int × ℚ)) (leaf : Int) :
    sumContribs (s ++ t) leaf = sumContribs s leaf + sumContribs t leaf := by
  simp [sumContribs]

theorem sumContribs_eq_zero_of_not_mem (m : List (Int × ℚ)) (k : Int)
    (h : k ∉ m.map Prod.fst) : sumContribs m k = 0 := by
  induction m with
  | nil => rfl
  | cons hd tl ih =>
    simp only [List.map_cons, List.mem_cons, not_or] at h
    rw [sumContribs_cons, ih h.2, if_neg (fun hh => h.1 hh.symm), add_zero]

theorem sumContribs_eq_dictGetD (m : List (Int × ℚ)) (k : Int)
    (h : (m.map Prod.fst).Nodup) : sumContribs m k = dictGetD m k 0 := by
  induction m with
  | nil => rfl
  | cons hd tl ih =>
    obtain ⟨k₀, v₀⟩ := hd
    simp only [List.map_cons, List.nodup_cons] at h
    rw [sumContribs_cons]
    by_cases hk : k₀ = k
    · subst hk
      rw [sumContribs_eq_zero_of_not_mem tl k₀ h.1]
      simp [dictGetD, dictGet?]
    · simp only [hk, if_false, zero_add]
      rw [ih h.2]
      simp [dictGetD, dictGet?, hk]

theorem dictGetD_foldl_dictAdd (sub : List (Int × ℚ)) :
    ∀ (acc : List (Int × ℚ)) (x : Int),
      dictGetD (List.foldl (fun req kv => dictAdd req kv.1 kv.2) acc sub) x 0
        = dictGetD acc x 0 + sumContribs sub x := by
  induction sub with
  | nil => intro acc x; simp [sumContribs_nil]
  | cons kv t ih =>
    intro acc x
    rw [List.foldl_cons, ih, dictGetD_dictAdd, sumContribs_cons]
    ring

theorem dictMem_foldl_dictAdd (sub : List (Int × ℚ)) :
    ∀ (acc : List (Int × ℚ)) (x : Int),
      dictMem (List.foldl (fun req kv => dictAdd req kv.1 kv.2) acc sub) x
        ↔ dictMem acc x ∨ x ∈ sub.map Prod.fst := by
  induction sub with
  | nil => intro acc x; simp
  | cons kv t ih =>
    intro acc x
    rw [List.foldl_cons, ih, dictMem_dictAdd]
    simp [or_assoc, or_comm, or_left_comm, eq_comm]

theorem dictKeys_nodup_foldl_dictAdd (sub : List (Int × ℚ)) :
    ∀ (acc : List (Int × ℚ)), (acc.map Prod.fst).Nodup →
      ((List.foldl (fun req kv => dictAdd req kv.1 kv.2) acc sub).map Prod.fst).Nodup := by
  induction sub with
  | nil => intro acc h; exact h
  | cons kv t ih =>
    intro acc h
    rw [List.foldl_cons]
    exact ih _ (dictKeys_nodup_dictSet _ _ _ h)

/-- If every entry with key `k` is unique (`Nodup` keys) and `(k, v)` occurs,
the summed contribution at `k` is exactly `v`. -/
theorem sumContribs_of_mem_nodup (pairs : List (Int × ℚ)) (k : Int) (v : ℚ)
    (hmem : (k, v) ∈ pairs) (hnd : (pairs.map Prod.fst).Nodup) :
    sumContribs pairs k = v := by
  induction pairs with
  | nil => cases hmem
  | cons hd tl ih =>
    simp only [List.map_cons, List.nodup_cons] at hnd
    rcases List.mem_cons.mp hmem with heq | htl
    · subst heq
      rw [sumContribs_cons, if_pos rfl,
        sumContribs_eq_zero_of_not_mem tl k hnd.1, add_zero]
    · have hk : k ∈ tl.map Prod.fst :=
        List.mem_map.mpr ⟨(k, v), htl, rfl⟩
      have hne : hd.1 ≠ k := fun h => hnd.1 (h ▸ hk)
      rw [sumContribs_cons, if_neg hne, zero_add]
      exact ih htl hnd.2

/-- The per-line loop of the explosion, when every component on the lines is
a leaf (not a sub-assembly): it succeeds and accumulates `q * quantity_per`
under each line's component id. -/
theorem explode_lines_leaf_spec (db : DB)
    (E : Int → ℚ → Nat → Except String (List (Int × ℚ))) (q : ℚ) (level : Nat) :
    ∀ (lines : List BOMLine) (acc : List (Int × ℚ)),
      (∀ line ∈ lines, ∃ c, findProduct db line.component_product_id = some c ∧
        c.ptype ≠ "sub_assembly") →
      ∃ m, explode_lines db E q level lines acc = Except.ok m ∧
        (∀ x, dictGetD m x 0 = dictGetD acc x 0 +
          sumContribs (lines.map (fun l => (l.component_product_id, q * l.quantity_per))) x) ∧
        (∀ x, dictMem m x ↔ dictMem acc x ∨
          x ∈ lines.map (fun l => l.component_product_id)) := by
  intro lines
  induction lines with
  | nil =>
    intro acc _
    exact ⟨acc, rfl, by simp [sumContribs_nil], by simp⟩
  | cons line rest ih =>
    intro acc hleaf
    obtain ⟨c, hc, hcne⟩ := hleaf line (List.mem_cons_self _ _)
    have hid : c.id = line.component_product_id := findProduct_id db _ c hc
    obtain ⟨m, hok, hval, hmem⟩ := ih (dictAdd acc c.id (q * line.quantity_per))
      (fun l hl => hleaf l (List.mem_cons_of_mem _ hl))
    refine ⟨m, ?_, ?_, ?_⟩
    · simp [explode_lines, hc, hcne, hok]
    · intro x
      rw [hval x, dictGetD_dictAdd]
      simp only [List.map_cons, sumContribs_cons, hid]
      ring
    · intro x
      rw [hmem x, dictMem_dictAdd]
      simp only [List.map_cons, List.mem_cons, hid]
      constructor
      · rintro ((h | h) | h)
        · exact Or.inr (Or.inl h.symm)
        · exact Or.inl h
        · exact Or.inr (Or.inr h)
      · rintro (h | h | h)
        · exact Or.inl (Or.inr h)
        · exact Or.inl (Or.inl h.symm)
        · exact Or.inr h

/-- One loop level of the explosion simulates one loop level of the per-path
enumeration: the accumulated value at each leaf grows by the summed
contributions of the emitted paths, membership grows by the emitted leaves,
and key uniqueness is preserved. -/
theorem explode_lines_path_sim (db : DB) (q : ℚ) (level : Nat)
    (E P : Int → ℚ → Nat → Except String (List (Int × ℚ)))
    (sim : ∀ pid q₀ m, E pid q₀ (level + 1) = Except.ok m →
      ∃ l, P pid q₀ (level + 1) = Except.ok l ∧
        (∀ x, dictGetD m x 0 = sumContribs l x) ∧
        (∀ x, dictMem m x ↔ x ∈ l.map Prod.fst) ∧
        (m.map Prod.fst).Nodup) :
    ∀ (lines : List BOMLine) (acc m : List (Int × ℚ)),
      (acc.map Prod.fst).Nodup →
      explode_lines db E q level lines acc = Except.ok m →
      ∃ l, path_lines db P q level lines = Except.ok l ∧
        (∀ x, dictGetD m x 0 = dictGetD acc x 0 + sumContribs l x) ∧
        (∀ x, dictMem m x ↔ dictMem acc x ∨ x ∈ l.map Prod.fst) ∧
        (m.map Prod.fst).Nodup := by
  intro lines
  induction lines with
  | nil =>
    intro acc m hnd hok
    simp only [explode_lines, Except.ok.injEq] at hok
    subst hok
    exact ⟨[], rfl, by simp [sumContribs_nil], by simp, hnd⟩
  | cons line rest ih =>
    intro acc m hnd hok
    cases hfind : findProduct db line.component_product_id with
    | none => simp [explode_lines, hfind] at hok
    | some c =>
      by_cases hsub : c.ptype = "sub_assembly"
      · simp only [explode_lines, hfind, hsub, beq_self_eq_true, if_true] at hok
        cases hE : E c.id (q * line.quantity_per) (level + 1) with
        | error e => rw [hE] at hok; cases hok
        | ok sub_reqs =>
          rw [hE] at hok
          obtain ⟨lsub, hP, hvalsub, hmemsub, hndsub⟩ := sim _ _ _ hE
          have hnd' := dictKeys_nodup_foldl_dictAdd sub_reqs acc hnd
          obtain ⟨lrest, hPrest, hval, hmem, hndm⟩ := ih _ m hnd' hok
          refine ⟨lsub ++ lrest, ?_, ?_, ?_, hndm⟩
          · simp [path_lines, hfind, hsub, hP, hPrest]
          · intro x
            rw [hval x, dictGetD_foldl_dictAdd, sumContribs_append,
              sumContribs_eq_dictGetD sub_reqs x hndsub, hvalsub x]
            ring
          · intro x
            rw [hmem x, dictMem_foldl_dictAdd]
            have hkeys : x ∈ sub_reqs.map Prod.fst ↔ x ∈ lsub.map Prod.fst := by
              rw [← dictMem_iff_mem_keys]; exact hmemsub x
            rw [hkeys]
            simp only [List.map_append, List.mem_append]
            tauto
      · simp only [explode_lines, hfind] at hok
        rw [if_neg (by simpa using hsub)] at hok
        have hnd' := dictKeys_nodup_dictSet acc c.id
          (dictGetD acc c.id 0 + q * line.quantity_per) hnd
        obtain ⟨lrest, hPrest, hval, hmem, hndm⟩ := ih _ m (by exact hnd') hok
        refine ⟨(c.id, q * line.quantity_per) :: lrest, ?_, ?_, ?_, hndm⟩
        · simp [path_lines, hfind, hsub, hPrest]
        · intro x
          rw [hval x, dictGetD_dictAdd, sumContribs_cons]
          ring
        · intro x
          rw [hmem x, dictMem_dictAdd]
          simp only [List.map_cons, List.mem_cons]
          constructor
          · rintro ((h | h) | h)
            · exact Or.inr (Or.inl h.symm)
            · exact Or.inl h
            · exact Or.inr (Or.inr h)
          · rintro (h | h | h)
            · exact Or.inl (Or.inr h)
            · exact Or.inl (Or.inl h.symm)
            · exact Or.inr h

/-- The fuel-indexed explosion simulates the fuel-indexed per-path
enumeration. -/
theorem explode_fuel_path_sim (db : DB) :
    ∀ (fuel : Nat) (pid : Int) (q : ℚ) (level : Nat) (m : List (Int × ℚ)),
      explode_fuel db fuel pid q level = Except.ok m →
      ∃ l, path_contribs_fuel db fuel pid q level = Except.ok l ∧
        (∀ x, dictGetD m x 0 = sumContribs l x) ∧
        (∀ x, dictMem m x ↔ x ∈ l.map Prod.fst) ∧
        (m.map Prod.fst).Nodup := by
  intro fuel
  induction fuel with
  | zero => intro pid q level m h; cases h
  | succ f ih =>
    intro pid q level m h
    by_cases hlv : level > 10
    · simp [explode_fuel, hlv] at h
    · simp only [explode_fuel, hlv, if_false] at h
      obtain ⟨l, hP, hval, hmem, hndm⟩ := explode_lines_path_sim db q level
        (fun pid₀ q₀ lv₀ => explode_fuel db f pid₀ q₀ lv₀)
        (fun pid₀ q₀ lv₀ => path_contribs_fuel db f pid₀ q₀ lv₀)
        (fun pid₀ q₀ m₀ h₀ => ih pid₀ q₀ (level + 1) m₀ h₀)
        (db.bom_lines.filter (fun l => l.parent_product_id == pid)) [] m (by simp) h
      refine ⟨l, ?_, ?_, ?_, hndm⟩
      · simp only [path_contribs_fuel, hlv, if_false]
        exact hP
      · intro x
        have := hval x
        simpa [dictGetD, dictGet?] using this
      · intro x
        have := hmem x
        simpa [dictMem, dictGet?] using this

/-- Per-path contributions of `explode_bom_recursive` from the root
(level 0). -/
def path_contribs (db : DB) (root : Int) (q : ℚ) : Except String (List (Int × ℚ)) :=
  path_contribs_fuel db 12 root q 0

theorem explode_bom_recursive_zero (db : DB) (root : Int) (q : ℚ) :
    explode_bom_recursive db root q 0 = explode_fuel db 12 root q 0 := by
  unfold explode_bom_recursive
  norm_num

/-- Unfolding the root call: level 0 passes the depth guard, so the explosion
is the loop over the root's BOM lines with the fuel-11 recursion. -/
theorem explode_bom_recursive_eq (db : DB) (root : Int) (q : ℚ) :
    explode_bom_recursive db root q 0
      = explode_lines db (fun pid q₀ lv => explode_fuel db 11 pid q₀ lv) q 0
          (db.bom_lines.filter (fun l => l.parent_product_id == root)) [] := by
  rw [explode_bom_recursive_zero, show (12 : Nat) = 11 + 1 from rfl]
  simp [explode_fuel]

/-- C8: (additivity) when none of the root's direct components is a
sub-assembly, the explosion succeeds, maps each direct component to
`q * quantity_per` of its (unique) edge, and holds no entry for any other
product id; (aggregation) whenever the explosion succeeds, each leaf's
accumulated quantity is the sum of the per-path contributions enumerated by
`path_contribs`, each path contributing the root demand multiplied through
the `quantity_per` of its edges. -/
theorem C8_explosion_additivity_aggregation :
    (∀ (db : DB) (root : Int) (q : ℚ),
      (∀ line ∈ db.bom_lines.filter (fun l => l.parent_product_id == root),
        ∃ c, findProduct db line.component_product_id = some c ∧
          c.ptype ≠ "sub_assembly") →
      ((db.bom_lines.filter (fun l => l.parent_product_id == root)).map
        (fun l => l.component_product_id)).Nodup →
      ∃ m, explode_bom_recursive db root q 0 = Except.ok m ∧
        (∀ line ∈ db.bom_lines.filter (fun l => l.parent_product_id == root),
          dictGet? m line.component_product_id = some (q * line.quantity_per)) ∧
        (∀ x, x ∉ (db.bom_lines.filter (fun l => l.parent_product_id == root)).map
            (fun l => l.component_product_id) → dictGet? m x = none)) ∧
    (∀ (db : DB) (root : Int) (q : ℚ) (m : List (Int × ℚ)),
      explode_bom_recursive db root q 0 = Except.ok m →
      ∃ l, path_contribs db root q = Except.ok l ∧
        ∀ leaf, dictGetD m leaf 0 = sumContribs l leaf) := by
  constructor
  · intro db root q hleaf hnd
    obtain ⟨m, hok, hval, hmem⟩ := explode_lines_leaf_spec db
      (fun pid q₀ lv => explode_fuel db 11 pid q₀ lv) q 0
      (db.bom_lines.filter (fun l => l.parent_product_id == root)) [] hleaf
    refine ⟨m, by rw [explode_bom_recursive_eq]; exact hok, ?_, ?_⟩
    · intro line hline
      have hmemm : dictMem m line.component_product_id := by
        rw [hmem]
        exact Or.inr (List.mem_map.mpr ⟨line, hline, rfl⟩)
      rw [dictGet?_eq_some_getD m _ (0 : ℚ) hmemm, hval]
      have hpairs : ((db.bom_lines.filter (fun l => l.parent_product_id == root)).map
          (fun l => (l.component_product_id, q * l.quantity_per))).map Prod.fst
          = (db.bom_lines.filter (fun l => l.parent_product_id == root)).map
              (fun l => l.component_product_id) := by
        rw [List.map_map]; rfl
      have := sumContribs_of_mem_nodup
        ((db.bom_lines.filter (fun l => l.parent_product_id == root)).map
          (fun l => (l.component_product_id, q * l.quantity_per)))
        line.component_product_id (q * line.quantity_per)
        (List.mem_map.mpr ⟨line, hline, rfl⟩) (by rw [hpairs]; exact hnd)
      rw [this]
      simp [dictGetD, dictGet?]
    · intro x hx
      apply dictGet?_eq_none_of_not_mem
      rw [hmem]
      rintro (h | h)
      · simp [dictMem, dictGet?] at h
      · exact hx h
  · intro db root q m hok
    rw [explode_bom_recursive_zero] at hok
    obtain ⟨l, hP, hval, _, _⟩ := explode_fuel_path_sim db 12 root q 0 m hok
    exact ⟨l, hP, hval⟩

/-- C8 witness: the additivity half on the single-edge flat BOM `chainDB 0`
with demand 5, and the aggregation half on `chainDB 1` with demand 7. -/
theorem C8_explosion_additivity_aggregation_witness :
    (∃ m, explode_bom_recursive (chainDB 0) 0 5 0 = Except.ok m ∧
      dictGet? m (chainEdge 0).component_product_id
        = some (5 * (chainEdge 0).quantity_per)) ∧
    (∃ m l, explode_bom_recursive (chainDB 1) 0 7 0 = Except.ok m ∧
      path_contribs (chainDB 1) 0 7 = Except.ok l ∧
      ∀ leaf, dictGetD m leaf 0 = sumContribs l leaf) := by
  have hf : (chainDB 0).bom_lines.filter
      (fun l => l.parent_product_id == (0 : Int)) = [chainEdge 0] := by
    have := chainDB_filter 0 0 (by omega)
    simpa using this
  constructor
  · have hleaf : ∀ line ∈ (chainDB 0).bom_lines.filter
        (fun l => l.parent_product_id == (0 : Int)),
        ∃ c, findProduct (chainDB 0) line.component_product_id = some c ∧
          c.ptype ≠ "sub_assembly" := by
      intro line hline
      rw [hf] at hline
      rcases List.mem_cons.mp hline with heq | habs
      · subst heq
        refine ⟨chainProduct 0 1, ?_, ?_⟩
        · have h1 := chainDB_findProduct 0 1 (by omega)
          have hcast : ((1 : Nat) : Int) = (chainEdge 0).component_product_id := by
            show ((1 : Nat) : Int) = ((0 : Nat) : Int) + 1
            norm_num
          rw [hcast] at h1
          exact h1
        · show (chainProduct 0 1).ptype ≠ "sub_assembly"
          simp only [chainProduct]
          rw [if_neg (by omega), if_neg (by omega)]
          decide
      · cases habs
    have hnd : (((chainDB 0).bom_lines.filter
        (fun l => l.parent_product_id == (0 : Int))).map
          (fun l => l.component_product_id)).Nodup := by
      rw [hf]; simp
    obtain ⟨m, hok, hval, hnone⟩ :=
      C8_explosion_additivity_aggregation.1 (chainDB 0) 0 5 hleaf hnd
    exact ⟨m, hok, hval (chainEdge 0) (by rw [hf]; exact List.mem_cons_self _ _)⟩
  · have hok10 := explode_fuel_chain_ok 1 (by omega) 1 0 12 7 (by omega) (by omega)
    obtain ⟨m, hok⟩ := hok10
    have hok' : explode_bom_recursive (chainDB 1) 0 7 0 = Except.ok m := by
      rw [explode_bom_recursive_zero]
      simpa using hok
    obtain ⟨l, hP, hval⟩ :=
      C8_explosion_additivity_aggregation.2 (chainDB 1) 0 7 m hok'
    exact ⟨m, l, hok', hP, hval⟩

/-! ## `MRPEngine.calculate_mrp` (mrp.py lines 97–203)

The Python method first deletes all `MRPResult` rows and **commits** that
deletion (line 111), then explodes every active finished good's forecast,
nets each component day by day while staging new rows with `db.add`, and
only commits the staged rows at the very end (line 196).  The model returns
the committed contents of the `mrp_results` table after the run together
with the outcome: a run that raises during explosion has committed only the
deletion, so the table comes back empty. -/

/-- Demand lookup of `get_demand_forecast` for one day:
`db.query(DailyDemand).filter(product_id == …, demand_date == …).first()`,
`0` when absent. -/
def demandLookup (db : DB) (product_id : Int) (d : Int) : ℚ :=
  match db.daily_demand.find? (fun r =>
      r.product_id == product_id && r.demand_date == d) with
  | some r => r.quantity
  | none => 0

/-- `MRPEngine.get_demand_forecast(product_id, days)` (mrp.py 232–257):
the dict `{day_offset: quantity}` built in ascending day order. -/
def get_demand_forecast (db : DB) (today : Int) (product_id : Int) (days : Nat) :
    List (Nat × ℚ) :=
  (List.range days).map (fun day_offset =>
    (day_offset, demandLookup db product_id (today + (day_offset : Int))))

/-- `MRPEngine.explode_bom(product_id, demand_data)` (mrp.py 205–230):
for each day with positive demand, explode recursively and record the
requirement per component per day. -/
def explode_bom (db : DB) (product_id : Int) (demand_data : List (Nat × ℚ)) :
    Except String (List (Int × List (Nat × ℚ))) :=
  demand_data.foldl
    (fun acc (dd : Nat × ℚ) =>
      match acc with
      | Except.error e => Except.error e
      | Except.ok component_requirements =>
        if dd.2 > 0 then
          match explode_bom_recursive db product_id dd.2 0 with
          | Except.error e => Except.error e
          | Except.ok daily_reqs =>
            Except.ok (daily_reqs.foldl
              (fun cr (kv : Int × ℚ) =>
                dictSet cr kv.1 (dictSet (dictGetD cr kv.1 []) dd.1 kv.2))
              component_requirements)
        else Except.ok component_requirements)
    (Except.ok [])

/-- The dict entry appended to the `shortages` list in `calculate_mrp`
(mrp.py 186–194); the display-only code/name strings are omitted. -/
structure ShortageRec where
  product_id : Int
  shortage_date : Int
  projected_inventory : ℚ
  reorder_point : ℚ
  reorder_qty : ℚ
deriving DecidableEq

/-- One iteration of the `for day_offset in range(days)` netting loop
(mrp.py 165–194).  State: (projected, shortage_detected, staged rows,
shortage dicts). -/
def net_day_step (component_id : Int) (today : Int)
    (reorder_point reorder_qty : ℚ) (daily_reqs : List (Nat × ℚ))
    (st : ℚ × Bool × List MRPResult × List ShortageRec) (day_offset : Nat) :
    ℚ × Bool × List MRPResult × List ShortageRec :=
  let current_date := today + (day_offset : Int)
  let day_requirement := dictGetD daily_reqs day_offset 0
  let projected := st.1 - day_requirement
  let row : MRPResult :=
    { product_id := component_id
      result_date := current_date
      projected_onhand := projected
      needs_ordering := decide (projected < reorder_point)
      shortage_date := if projected < 0 then some current_date else none }
  let shorts :=
    if projected < 0 ∧ st.2.1 = false then
      st.2.2.2 ++ [{ product_id := component_id
                     shortage_date := current_date
                     projected_inventory := projected
                     reorder_point := reorder_point
                     reorder_qty := reorder_qty }]
    else st.2.2.2
  (projected, st.2.1 || decide (projected < 0), st.2.2.1 ++ [row], shorts)

/-- The per-component block of `calculate_mrp` (mrp.py 147–194): skip when
the product record is missing (`continue`), start from the inventory
`on_hand` (0 when absent), then net day by day. -/
def project_component (db : DB) (today : Int) (days : Nat) (component_id : Int)
    (daily_reqs : List (Nat × ℚ)) : List MRPResult × List ShortageRec :=
  match findProduct db component_id with
  | none => ([], [])
  | some component =>
    let on_hand : ℚ := match findInventory db component_id with
      | some inv => inv.on_hand
      | none => 0
    let final := (List.range days).foldl
      (net_day_step component_id today component.reorder_point
        component.reorder_qty daily_reqs)
      (on_hand, false, [], [])
    (final.2.2.1, final.2.2.2)

/-- The query of mrp.py 114–117: all active finished goods, in table order. -/
def finished_goods (db : DB) : List Product :=
  db.products.filter (fun p => p.ptype == "finished_good" && p.active)

/-- Merging one product's per-component day-indexed requirements into the
running `total_component_requirements` dict (mrp.py 135–141). -/
def merge_component_reqs (total : List (Int × List (Nat × ℚ)))
    (component_reqs : List (Int × List (Nat × ℚ))) : List (Int × List (Nat × ℚ)) :=
  component_reqs.foldl
    (fun tot (cd : Int × List (Nat × ℚ)) =>
      dictSet tot cd.1
        (cd.2.foldl
          (fun day_map (dq : Nat × ℚ) =>
            dictSet day_map dq.1 (dictGetD day_map dq.1 0 + dq.2))
          (dictGetD tot cd.1 [])))
    total

/-- The per-finished-good loop of mrp.py 125–141: demand forecast, BOM
explosion, and accumulation of `total_component_requirements`. -/
def compute_total_reqs (db : DB) (today : Int) (days : Nat) :
    Except String (List (Int × List (Nat × ℚ))) :=
  (finished_goods db).foldl
    (fun acc (product : Product) =>
      match acc with
      | Except.error e => Except.error e
      | Except.ok total =>
        match explode_bom db product.id
            (get_demand_forecast db today product.id days) with
        | Except.error e => Except.error e
        | Except.ok component_reqs =>
          Except.ok (merge_component_reqs total component_reqs))
    (Except.ok [])

/-- `MRPEngine.calculate_mrp(days)` (mrp.py 97–203): first component of the
result is the committed `mrp_results` table after the run, the second the
outcome — on success the shortage list plus `products_processed` and
`components_analyzed`. -/
def calculate_mrp (db : DB) (today : Int) (days : Nat) :
    List MRPResult × Except String (List ShortageRec × Nat × Nat) :=
  match compute_total_reqs db today days with
  | Except.error e => ([], Except.error e)
  | Except.ok total =>
    let built := total.foldl
      (fun (acc : List MRPResult × List ShortageRec) (cd : Int × List (Nat × ℚ)) =>
        let pr := project_component db today days cd.1 cd.2
        (acc.1 ++ pr.1, acc.2 ++ pr.2))
      ([], [])
    (built.1, Except.ok (built.2, (finished_goods db).length, total.length))

/-- Unfold one explosion level for any non-zero fuel (used to evaluate the
engine on concrete databases). -/
theorem explode_fuel_unfold (db : DB) (fuel : Nat) (pid : Int) (q : ℚ) (level : Nat)
    (h : fuel ≠ 0) :
    explode_fuel db fuel pid q level =
      if level > 10 then Except.error "BOM nesting too deep (more than 10 levels)"
      else explode_lines db (fun pid₀ q₀ lv₀ => explode_fuel db (fuel - 1) pid₀ q₀ lv₀)
        q level (db.bom_lines.filter (fun l => l.parent_product_id == pid)) [] := by
  cases fuel with
  | zero => exact absurd rfl h
  | succ f => rfl

/-- The rows staged by one day of the netting loop: the previous rows plus
one new row whose `shortage_date` is its own date exactly when the new
projected balance is negative. -/
theorem net_day_step_rows (cid : Int) (today : Int) (rp rq : ℚ)
    (reqs : List (Nat × ℚ)) (st : ℚ × Bool × List MRPResult × List ShortageRec)
    (d : Nat) :
    (net_day_step cid today rp rq reqs st d).2.2.1
      = st.2.2.1 ++ [{ product_id := cid
                       result_date := today + (d : Int)
                       projected_onhand := st.1 - dictGetD reqs d 0
                       needs_ordering := decide (st.1 - dictGetD reqs d 0 < rp)
                       shortage_date := if st.1 - dictGetD reqs d 0 < 0
                         then some (today + (d : Int)) else none }] := rfl

theorem net_fold_rows_prop (cid : Int) (today : Int) (rp rq : ℚ)
    (reqs : List (Nat × ℚ)) :
    ∀ (l : List Nat) (st : ℚ × Bool × List MRPResult × List ShortageRec),
      (∀ row ∈ st.2.2.1, row.product_id = cid ∧
        row.shortage_date
          = (if row.projected_onhand < 0 then some row.result_date else none)) →
      ∀ row ∈ (l.foldl (net_day_step cid today rp rq reqs) st).2.2.1,
        row.product_id = cid ∧
        row.shortage_date
          = (if row.projected_onhand < 0 then some row.result_date else none) := by
  intro l
  induction l with
  | nil => intro st h row hrow; exact h row hrow
  | cons d rest ih =>
    intro st h row hrow
    rw [List.foldl_cons] at hrow
    refine ih _ ?_ row hrow
    intro r hr
    rw [net_day_step_rows] at hr
    rcases List.mem_append.mp hr with hr | hr
    · exact h r hr
    · rw [List.mem_singleton] at hr
      subst hr
      exact ⟨rfl, rfl⟩

/-- Every row staged for a component carries that component's id, and its
`shortage_date` is its own date exactly when the projected balance of that
day is negative. -/
theorem project_component_rows_prop (db : DB) (today : Int) (days : Nat)
    (cid : Int) (reqs : List (Nat × ℚ)) :
    ∀ row ∈ (project_component db today days cid reqs).1,
      row.product_id = cid ∧
      row.shortage_date
        = (if row.projected_onhand < 0 then some row.result_date else none) := by
  intro row hrow
  unfold project_component at hrow
  cases hfp : findProduct db cid with
  | none => rw [hfp] at hrow; cases hrow
  | some component =>
    rw [hfp] at hrow
    exact net_fold_rows_prop cid today _ _ reqs (List.range days) _
      (by intro r hr; cases hr) row hrow

/-- Decomposing membership in the row set built by `calculate_mrp`. -/
theorem mem_calculate_rows (db : DB) (today : Int) (days : Nat) :
    ∀ (total : List (Int × List (Nat × ℚ)))
      (init : List MRPResult × List ShortageRec) (row : MRPResult),
      row ∈ (total.foldl
        (fun (acc : List MRPResult × List ShortageRec) (cd : Int × List (Nat × ℚ)) =>
          let pr := project_component db today days cd.1 cd.2
          (acc.1 ++ pr.1, acc.2 ++ pr.2)) init).1 →
      row ∈ init.1 ∨ ∃ cd ∈ total, row ∈ (project_component db today days cd.1 cd.2).1 := by
  intro total
  induction total with
  | nil => intro init row h; exact Or.inl h
  | cons cd rest ih =>
    intro init row h
    rw [List.foldl_cons] at h
    rcases ih _ row h with hin | ⟨cd', hcd', hrow⟩
    · rcases List.mem_append.mp hin with h1 | h2
      · exact Or.inl h1
      · exact Or.inr ⟨cd, List.mem_cons_self _ _, h2⟩
    · exact Or.inr ⟨cd', List.mem_cons_of_mem _ hcd', hrow⟩

/-- C1 (amended): in every run, each projection row's `shortage_date` is the
row's own date exactly when its `projected_onhand` is negative, and null
otherwise — the engine flags **every** negative day, not only the first
(only the returned `shortages` alert list is limited to the first one). -/
theorem C1_shortage_date_flags_every_negative_day (db : DB) (today : Int)
    (days : Nat) (row : MRPResult)
    (hrow : row ∈ (calculate_mrp db today days).1) :
    row.shortage_date
      = (if row.projected_onhand < 0 then some row.result_date else none) := by
  unfold calculate_mrp at hrow
  cases htr : compute_total_reqs db today days with
  | error e => rw [htr] at hrow; cases hrow
  | ok total =>
    rw [htr] at hrow
    rcases mem_calculate_rows db today days total ([], []) row hrow with h | ⟨cd, _, h⟩
    · cases h
    · exact (project_component_rows_prop db today days cd.1 cd.2 row h).2

/-- Counterexample database: finished good `1` consumes component `2`
(1 per unit); demand is 10 a day for days 0–2 and `on_hand` is 10, so the
projected balance is 0, −10, −20 over a 3-day horizon — negative on two
days. -/
def C1db : DB where
  products :=
    [{ id := 1, ptype := "finished_good", active := true, lead_time_days := 0,
       reorder_point := 0, reorder_qty := 0, safety_stock := 0,
       order_multiple := 1, minimum_order_qty := 0 },
     { id := 2, ptype := "component", active := true, lead_time_days := 0,
       reorder_point := 0, reorder_qty := 0, safety_stock := 0,
       order_multiple := 1, minimum_order_qty := 0 }]
  bom_lines := [{ parent_product_id := 1, component_product_id := 2, quantity_per := 1 }]
  inventory := [{ product_id := 2, on_hand := 10 }]
  daily_demand :=
    [{ product_id := 1, demand_date := 0, quantity := 10 },
     { product_id := 1, demand_date := 1, quantity := 10 },
     { product_id := 1, demand_date := 2, quantity := 10 }]
  purchase_orders := []
  weekly_shipments := []
  mrp_results := []

/-- The full projection row set the run on `C1db` commits. -/
theorem C1db_rows :
    (calculate_mrp C1db 0 3).1
      = [{ product_id := 2, result_date := 0, projected_onhand := 0,
           needs_ordering := false, shortage_date := none },
         { product_id := 2, result_date := 1, projected_onhand := -10,
           needs_ordering := true, shortage_date := some 1 },
         { product_id := 2, result_date := 2, projected_onhand := -20,
           needs_ordering := true, shortage_date := some 2 }] := by
  norm_num [calculate_mrp, compute_total_reqs, finished_goods, merge_component_reqs,
    C1db, get_demand_forecast, demandLookup, explode_bom,
    explode_bom_recursive_eq, explode_lines, project_component,
    net_day_step, findProduct, findInventory, dictSet, dictGetD, dictGet?,
    List.find?, List.filter, List.range_succ, List.foldl,
    show ¬(("component" : String) = "sub_assembly") from by decide,
    show (("component" : String) == "sub_assembly") = false from by decide,
    show (("finished_good" : String) == "finished_good") = true from by decide,
    show (("component" : String) == "finished_good") = false from by decide,
    show ((0 : Int) == 1) = false from by decide,
    show ((0 : Int) == 2) = false from by decide,
    show ((1 : Int) == 2) = false from by decide,
    show ((2 : Int) == 2) = true from by decide,
    show ((1 : Int) == 1) = true from by decide,
    show ((0 : Int) == 0) = true from by decide,
    show ((2 : Int) == 1) = false from by decide,
    show ((1 : Int) == 0) = false from by decide,
    show ((2 : Int) == 0) = false from by decide]

/-- C1 counterexample: on `C1db` the run writes, for component `2`, **two**
rows with a non-null `shortage_date` (days 1 and 2) — refuting the claim
that at most one projection row per component has a non-null
`shortage_date`. -/
theorem C1_counterexample_two_flagged_rows :
    ((calculate_mrp C1db 0 3).1.filter
      (fun row => row.product_id == 2 && row.shortage_date.isSome)).length = 2 := by
  rw [C1db_rows]
  rfl

/-- The day-1 row of the `C1db` run. -/
def C1row : MRPResult where
  product_id := 2
  result_date := 1
  projected_onhand := -10
  needs_ordering := true
  shortage_date := some 1

/-- C1 witness: the amended theorem applied to the day-1 row of the `C1db`
run. -/
theorem C1_shortage_date_flags_every_negative_day_witness :
    C1row.shortage_date
      = (if C1row.projected_onhand < 0 then some C1row.result_date else none) :=
  C1_shortage_date_flags_every_negative_day C1db 0 3 C1row
    (by rw [C1db_rows]; exact List.mem_cons_of_mem _ (List.mem_cons_self _ _))

/-- The starting balance of the netting loop: `on_hand` of the inventory
row, `0` when absent (mrp.py 157). -/
def onHandOf (db : DB) (cid : Int) : ℚ :=
  match findInventory db cid with
  | some inv => inv.on_hand
  | none => 0

/-- Consolidated requirement summed over day offsets `0 … k`. -/
def sumReqThrough (reqs : List (Nat × ℚ)) (k : Nat) : ℚ :=
  ((List.range (k + 1)).map (fun j => dictGetD reqs j 0)).sum

theorem net_fold_balance (cid : Int) (today : Int) (rp rq : ℚ)
    (reqs : List (Nat × ℚ)) (start : ℚ) (b : Bool)
    (rows : List MRPResult) (shorts : List ShortageRec) :
    ∀ d, ((List.range d).foldl (net_day_step cid today rp rq reqs)
        (start, b, rows, shorts)).1
      = start - ((List.range d).map (fun j => dictGetD reqs j 0)).sum := by
  intro d
  induction d with
  | zero => simp
  | succ d ih =>
    rw [List.range_succ, List.foldl_append]
    simp only [List.foldl_cons, List.foldl_nil]
    rw [show ∀ st, (net_day_step cid today rp rq reqs st d).1
        = st.1 - dictGetD reqs d 0 from fun st => rfl]
    rw [ih, List.map_append, List.sum_append]
    simp [sub_sub]

theorem net_fold_rows_closed (cid : Int) (today : Int) (rp rq : ℚ)
    (reqs : List (Nat × ℚ)) (start : ℚ) :
    ∀ d, ((List.range d).foldl (net_day_step cid today rp rq reqs)
        (start, false, [], [])).2.2.1
      = (List.range d).map (fun k =>
          { product_id := cid
            result_date := today + (k : Int)
            projected_onhand := start - sumReqThrough reqs k
            needs_ordering := decide (start - sumReqThrough reqs k < rp)
            shortage_date := if start - sumReqThrough reqs k < 0
              then some (today + (k : Int)) else none }) := by
  intro d
  induction d with
  | zero => rfl
  | succ d ih =>
    rw [List.range_succ, List.foldl_append, List.map_append]
    simp only [List.foldl_cons, List.foldl_nil]
    rw [net_day_step_rows, ih]
    have hbal : ((List.range d).foldl (net_day_step cid today rp rq reqs)
        (start, false, [], [])).1
        = start - ((List.range d).map (fun j => dictGetD reqs j 0)).sum :=
      net_fold_balance cid today rp rq reqs start false [] [] d
    have hsum : start - ((List.range d).map (fun j => dictGetD reqs j 0)).sum
        - dictGetD reqs d 0 = start - sumReqThrough reqs d := by
      unfold sumReqThrough
      rw [List.range_succ, List.map_append, List.sum_append]
      simp [sub_sub]
    rw [hbal, List.map_singleton, hsum]

/-- Closed form of one component's projection rows: row `k` carries balance
`on_hand` minus the consolidated requirements of days `0 … k` — purchase
orders never enter. -/
theorem project_component_closed (db : DB) (today : Int) (days : Nat)
    (cid : Int) (reqs : List (Nat × ℚ)) (component : Product)
    (hfp : findProduct db cid = some component) :
    (project_component db today days cid reqs).1
      = (List.range days).map (fun k =>
          { product_id := cid
            result_date := today + (k : Int)
            projected_onhand := onHandOf db cid - sumReqThrough reqs k
            needs_ordering := decide (onHandOf db cid - sumReqThrough reqs k
              < component.reorder_point)
            shortage_date := if onHandOf db cid - sumReqThrough reqs k < 0
              then some (today + (k : Int)) else none }) := by
  unfold project_component
  rw [hfp]
  exact net_fold_rows_closed cid today component.reorder_point
    component.reorder_qty reqs (onHandOf db cid) days

/-- Scenario-B database: finished good `1` consumes component `2` at 1 per
unit, demand 20 a day over a 6-day horizon, `on_hand` 100,
`reorder_point` 50, and a **pending purchase order of 50 expected on day
offset 5** (the scenario's "day 6"). -/
def C2db : DB where
  products :=
    [{ id := 1, ptype := "finished_good", active := true, lead_time_days := 0,
       reorder_point := 0, reorder_qty := 0, safety_stock := 0,
       order_multiple := 1, minimum_order_qty := 0 },
     { id := 2, ptype := "component", active := true, lead_time_days := 0,
       reorder_point := 50, reorder_qty := 0, safety_stock := 0,
       order_multiple := 1, minimum_order_qty := 0 }]
  bom_lines := [{ parent_product_id := 1, component_product_id := 2, quantity_per := 1 }]
  inventory := [{ product_id := 2, on_hand := 100 }]
  daily_demand :=
    [{ product_id := 1, demand_date := 0, quantity := 20 },
     { product_id := 1, demand_date := 1, quantity := 20 },
     { product_id := 1, demand_date := 2, quantity := 20 },
     { product_id := 1, demand_date := 3, quantity := 20 },
     { product_id := 1, demand_date := 4, quantity := 20 },
     { product_id := 1, demand_date := 5, quantity := 20 }]
  purchase_orders := [{ product_id := 2, expected_date := 5, quantity := 50,
                        status := "pending" }]
  weekly_shipments := []
  mrp_results := []

/-- The full projection row set of the Scenario-B run: the balance falls
20 a day from 100 and the pending receipt of 50 never enters. -/
theorem C2db_rows :
    (calculate_mrp C2db 0 6).1
      = [{ product_id := 2, result_date := 0, projected_onhand := 80,
           needs_ordering := false, shortage_date := none },
         { product_id := 2, result_date := 1, projected_onhand := 60,
           needs_ordering := false, shortage_date := none },
         { product_id := 2, result_date := 2, projected_onhand := 40,
           needs_ordering := true, shortage_date := none },
         { product_id := 2, result_date := 3, projected_onhand := 20,
           needs_ordering := true, shortage_date := none },
         { product_id := 2, result_date := 4, projected_onhand := 0,
           needs_ordering := true, shortage_date := none },
         { product_id := 2, result_date := 5, projected_onhand := -20,
           needs_ordering := true, shortage_date := some 5 }] := by
  norm_num [calculate_mrp, compute_total_reqs, finished_goods, merge_component_reqs,
    C2db, get_demand_forecast, demandLookup, explode_bom,
    explode_bom_recursive_eq, explode_lines, project_component,
    net_day_step, findProduct, findInventory, dictSet, dictGetD, dictGet?,
    List.find?, List.filter, List.range_succ, List.foldl,
    show ¬(("component" : String) = "sub_assembly") from by decide,
    show (("component" : String) == "sub_assembly") = false from by decide,
    show (("finished_good" : String) == "finished_good") = true from by decide,
    show (("component" : String) == "finished_good") = false from by decide,
    show ((0 : Int) == 1) = false from by decide,
    show ((0 : Int) == 2) = false from by decide,
    show ((0 : Int) == 3) = false from by decide,
    show ((0 : Int) == 4) = false from by decide,
    show ((0 : Int) == 5) = false from by decide,
    show ((1 : Int) == 2) = false from by decide,
    show ((1 : Int) == 3) = false from by decide,
    show ((1 : Int) == 4) = false from by decide,
    show ((1 : Int) == 5) = false from by decide,
    show ((2 : Int) == 3) = false from by decide,
    show ((2 : Int) == 4) = false from by decide,
    show ((2 : Int) == 5) = false from by decide,
    show ((3 : Int) == 4) = false from by decide,
    show ((3 : Int) == 5) = false from by decide,
    show ((4 : Int) == 5) = false from by decide,
    show ((0 : Int) == 0) = true from by decide,
    show ((1 : Int) == 1) = true from by decide,
    show ((2 : Int) == 2) = true from by decide,
    show ((3 : Int) == 3) = true from by decide,
    show ((4 : Int) == 4) = true from by decide,
    show ((5 : Int) == 5) = true from by decide,
    show ((1 : Int) == 0) = false from by decide,
    show ((2 : Int) == 0) = false from by decide,
    show ((2 : Int) == 1) = false from by decide,
    show ((3 : Int) == 0) = false from by decide,
    show ((3 : Int) == 1) = false from by decide,
    show ((3 : Int) == 2) = false from by decide,
    show ((4 : Int) == 0) = false from by decide,
    show ((4 : Int) == 1) = false from by decide,
    show ((4 : Int) == 2) = false from by decide,
    show ((4 : Int) == 3) = false from by decide,
    show ((5 : Int) == 0) = false from by decide,
    show ((5 : Int) == 1) = false from by decide,
    show ((5 : Int) == 2) = false from by decide,
    show ((5 : Int) == 3) = false from by decide,
    show ((5 : Int) == 4) = false from by decide]

/-- The day-offset-5 ("day 6") row of the Scenario-B run. -/
def C2row : MRPResult where
  product_id := 2
  result_date := 5
  projected_onhand := -20
  needs_ordering := true
  shortage_date := some 5

/-- C2 counterexample: with the pending receipt of 50 expected on day 6 in
place, the day-6 row still carries balance −20 and a shortage flag — not
the claimed balance 30 with no shortage: `calculate_mrp` never reads
purchase orders. -/
theorem C2_counterexample_receipt_ignored :
    (calculate_mrp C2db 0 6).1[5]? = some C2row ∧
    C2db.purchase_orders
      = [{ product_id := 2, expected_date := 5, quantity := 50,
           status := "pending" }] ∧
    C2row.projected_onhand = -20 ∧ C2row.shortage_date = some 5 := by
  rw [C2db_rows]
  exact ⟨rfl, rfl, rfl, rfl⟩

/-- `foldl` congruence in the function argument. -/
theorem foldl_congr_fun {α β : Type} (f g : α → β → α) (init : α) (l : List β)
    (h : ∀ b ∈ l, ∀ a, f a b = g a b) : l.foldl f init = l.foldl g init := by
  induction l generalizing init with
  | nil => rfl
  | cons hd tl ih =>
    rw [List.foldl_cons, List.foldl_cons, h hd (List.mem_cons_self _ _)]
    exact ih _ (fun b hb a => h b (List.mem_cons_of_mem _ hb) a)

/-- `findProduct` reads only the product table. -/
theorem findProduct_congr (db₁ db₂ : DB) (hp : db₁.products = db₂.products)
    (pid : Int) : findProduct db₁ pid = findProduct db₂ pid := by
  unfold findProduct; rw [hp]

/-- `findInventory` reads only the inventory table. -/
theorem findInventory_congr (db₁ db₂ : DB) (hi : db₁.inventory = db₂.inventory)
    (pid : Int) : findInventory db₁ pid = findInventory db₂ pid := by
  unfold findInventory; rw [hi]

theorem explode_lines_congr (db₁ db₂ : DB) (hp : db₁.products = db₂.products)
    (E₁ E₂ : Int → ℚ → Nat → Except String (List (Int × ℚ)))
    (hE : ∀ pid q lv, E₁ pid q lv = E₂ pid q lv) (q : ℚ) (level : Nat) :
    ∀ (lines : List BOMLine) (acc : List (Int × ℚ)),
      explode_lines db₁ E₁ q level lines acc = explode_lines db₂ E₂ q level lines acc := by
  intro lines
  induction lines with
  | nil => intro acc; rfl
  | cons line rest ih =>
    intro acc
    simp only [explode_lines, findProduct_congr db₁ db₂ hp]
    cases findProduct db₂ line.component_product_id with
    | none => rfl
    | some c =>
      by_cases hsub : c.ptype = "sub_assembly"
      · simp only [hsub, beq_self_eq_true, if_true, hE]
        cases E₂ c.id (q * line.quantity_per) (level + 1) with
        | error e => rfl
        | ok sub_reqs => exact ih _
      · have hb : (c.ptype == "sub_assembly") = false := by
          simpa using hsub
        simp only [hb, Bool.false_eq_true, if_false]
        exact ih _

/-- The explosion reads only the product and BOM tables. -/
theorem explode_fuel_congr (db₁ db₂ : DB) (hp : db₁.products = db₂.products)
    (hb : db₁.bom_lines = db₂.bom_lines) :
    ∀ (fuel : Nat) (pid : Int) (q : ℚ) (level : Nat),
      explode_fuel db₁ fuel pid q level = explode_fuel db₂ fuel pid q level := by
  intro fuel
  induction fuel with
  | zero => intro pid q level; rfl
  | succ f ih =>
    intro pid q level
    simp only [explode_fuel, hb]
    by_cases hlv : level > 10
    · simp [hlv]
    · simp only [hlv, if_false]
      exact explode_lines_congr db₁ db₂ hp _ _ (fun pid₀ q₀ lv₀ => ih pid₀ q₀ lv₀) q level _ []

theorem explode_bom_recursive_congr (db₁ db₂ : DB)
    (hp : db₁.products = db₂.products) (hb : db₁.bom_lines = db₂.bom_lines)
    (pid : Int) (q : ℚ) (level : Nat) :
    explode_bom_recursive db₁ pid q level = explode_bom_recursive db₂ pid q level :=
  explode_fuel_congr db₁ db₂ hp hb _ pid q level

theorem get_demand_forecast_congr (db₁ db₂ : DB)
    (hd : db₁.daily_demand = db₂.daily_demand) (today : Int) (pid : Int) (days : Nat) :
    get_demand_forecast db₁ today pid days = get_demand_forecast db₂ today pid days := by
  unfold get_demand_forecast demandLookup; rw [hd]

theorem explode_bom_congr (db₁ db₂ : DB) (hp : db₁.products = db₂.products)
    (hb : db₁.bom_lines = db₂.bom_lines) (pid : Int) (demand_data : List (Nat × ℚ)) :
    explode_bom db₁ pid demand_data = explode_bom db₂ pid demand_data := by
  unfold explode_bom
  apply foldl_congr_fun
  intro dd _ acc
  cases acc with
  | error e => rfl
  | ok cr =>
    simp only
    rw [explode_bom_recursive_congr db₁ db₂ hp hb]

theorem compute_total_reqs_congr (db₁ db₂ : DB) (hp : db₁.products = db₂.products)
    (hb : db₁.bom_lines = db₂.bom_lines) (hd : db₁.daily_demand = db₂.daily_demand)
    (today : Int) (days : Nat) :
    compute_total_reqs db₁ today days = compute_total_reqs db₂ today days := by
  unfold compute_total_reqs finished_goods
  rw [hp]
  apply foldl_congr_fun
  intro product _ acc
  cases acc with
  | error e => rfl
  | ok total =>
    simp only
    rw [get_demand_forecast_congr db₁ db₂ hd, explode_bom_congr db₁ db₂ hp hb]

theorem project_component_congr (db₁ db₂ : DB) (hp : db₁.products = db₂.products)
    (hi : db₁.inventory = db₂.inventory) (today : Int) (days : Nat)
    (cid : Int) (reqs : List (Nat × ℚ)) :
    project_component db₁ today days cid reqs = project_component db₂ today days cid reqs := by
  unfold project_component
  rw [findProduct_congr db₁ db₂ hp]
  cases findProduct db₂ cid with
  | none => rfl
  | some component =>
    simp only
    rw [findInventory_congr db₁ db₂ hi]

/-- `calculate_mrp` reads only the product, BOM, inventory and daily-demand
tables — in particular it never reads purchase orders. -/
theorem calculate_mrp_congr (db₁ db₂ : DB) (hp : db₁.products = db₂.products)
    (hb : db₁.bom_lines = db₂.bom_lines) (hi : db₁.inventory = db₂.inventory)
    (hd : db₁.daily_demand = db₂.daily_demand) (today : Int) (days : Nat) :
    calculate_mrp db₁ today days = calculate_mrp db₂ today days := by
  unfold calculate_mrp finished_goods
  rw [compute_total_reqs_congr db₁ db₂ hp hb hd, hp]
  cases compute_total_reqs db₂ today days with
  | error e => rfl
  | ok total =>
    simp only
    have hfold : ∀ (init : List MRPResult × List ShortageRec),
        total.foldl
          (fun (acc : List MRPResult × List ShortageRec) (cd : Int × List (Nat × ℚ)) =>
            let pr := project_component db₁ today days cd.1 cd.2
            (acc.1 ++ pr.1, acc.2 ++ pr.2)) init
        = total.foldl
          (fun (acc : List MRPResult × List ShortageRec) (cd : Int × List (Nat × ℚ)) =>
            let pr := project_component db₂ today days cd.1 cd.2
            (acc.1 ++ pr.1, acc.2 ++ pr.2)) init := by
      intro init
      apply foldl_congr_fun
      intro cd _ acc
      simp only
      rw [project_component_congr db₁ db₂ hp hi]
    rw [hfold]

/-- C2 (amended): the netting run ignores purchase orders entirely — the
committed rows and the outcome are invariant under any replacement of the
purchase-order table — and each projection row's balance is the starting
`on_hand` minus the consolidated requirements of all days up to and
including its own (no receipt term); on the Scenario-B database the day-6
row carries balance −20 and a shortage, not the claimed 30 with none. -/
theorem C2_balance_ignores_receipts :
    (∀ (db : DB) (pos : List PurchaseOrder) (today : Int) (days : Nat),
      calculate_mrp { db with purchase_orders := pos } today days
        = calculate_mrp db today days) ∧
    (∀ (db : DB) (today : Int) (days : Nat) (cid : Int) (reqs : List (Nat × ℚ))
       (component : Product), findProduct db cid = some component →
      (project_component db today days cid reqs).1
        = (List.range days).map (fun k =>
            { product_id := cid
              result_date := today + (k : Int)
              projected_onhand := onHandOf db cid - sumReqThrough reqs k
              needs_ordering := decide (onHandOf db cid - sumReqThrough reqs k
                < component.reorder_point)
              shortage_date := if onHandOf db cid - sumReqThrough reqs k < 0
                then some (today + (k : Int)) else none })) ∧
    ((calculate_mrp C2db 0 6).1[5]? = some C2row ∧
      C2row.projected_onhand = -20 ∧ C2row.shortage_date = some 5) := by
  refine ⟨?_, project_component_closed, ?_⟩
  · intro db pos today days
    exact calculate_mrp_congr { db with purchase_orders := pos } db rfl rfl rfl rfl today days
  · rw [C2db_rows]
    exact ⟨rfl, rfl, rfl⟩

/-- C2 witness: the closed-form conjunct applied to component `2` of the
Scenario-B database with its consolidated 20-a-day requirement dict. -/
theorem C2_balance_ignores_receipts_witness :
    (project_component C2db 0 6 2
        [(0, 20), (1, 20), (2, 20), (3, 20), (4, 20), (5, 20)]).1
      = (List.range 6).map (fun k =>
          { product_id := 2
            result_date := 0 + (k : Int)
            projected_onhand := onHandOf C2db 2
              - sumReqThrough [(0, 20), (1, 20), (2, 20), (3, 20), (4, 20), (5, 20)] k
            needs_ordering := decide (onHandOf C2db 2
              - sumReqThrough [(0, 20), (1, 20), (2, 20), (3, 20), (4, 20), (5, 20)] k
              < ({ id := 2, ptype := "component", active := true, lead_time_days := 0,
                   reorder_point := 50, reorder_qty := 0, safety_stock := 0,
                   order_multiple := 1, minimum_order_qty := 0 } : Product).reorder_point)
            shortage_date := if onHandOf C2db 2
                - sumReqThrough [(0, 20), (1, 20), (2, 20), (3, 20), (4, 20), (5, 20)] k < 0
              then some (0 + (k : Int)) else none }) :=
  C2_balance_ignores_receipts.2.1 C2db 0 6 2
    [(0, 20), (1, 20), (2, 20), (3, 20), (4, 20), (5, 20)]
    { id := 2, ptype := "component", active := true, lead_time_days := 0,
      reorder_point := 50, reorder_qty := 0, safety_stock := 0,
      order_multiple := 1, minimum_order_qty := 0 }
    (by norm_num [findProduct, C2db, List.find?,
      show ((1 : Int) == 2) = false from by decide,
      show ((2 : Int) == 2) = true from by decide])

/-- Counterexample database for the transaction claim: the 11-level
sub-assembly chain of `chainDB 11` (so explosion raises the depth error),
demand of 1 for the root finished good on day 0, and one previously
committed MRPResult row (for product 99) from an earlier successful run. -/
def C3db : DB where
  products := (chainDB 11).products
  bom_lines := (chainDB 11).bom_lines
  inventory := []
  daily_demand := [{ product_id := 0, demand_date := 0, quantity := 1 }]
  purchase_orders := []
  weekly_shipments := []
  mrp_results := [{ product_id := 99, result_date := 0, projected_onhand := 5,
                    needs_ordering := false, shortage_date := none }]

/-- The run on `C3db` fails: the explosion of the root hits the depth
guard. -/
theorem C3db_run_fails : ∃ e, (calculate_mrp C3db 0 1).2 = Except.error e := by
  have hchain : ∀ i, i < 11 →
      (∃ line ∈ C3db.bom_lines, line.parent_product_id = ((i : Nat) : Int) ∧
        line.component_product_id = ((i + 1 : Nat) : Int)) ∧
      (∃ c, findProduct C3db ((i + 1 : Nat) : Int) = some c ∧
        c.ptype = "sub_assembly") := by
    intro i hi
    constructor
    · refine ⟨chainEdge i, ?_, rfl, ?_⟩
      · exact List.mem_map_of_mem chainEdge (List.mem_range.mpr (by omega))
      · show ((i : Nat) : Int) + 1 = ((i + 1 : Nat) : Int)
        push_cast; ring
    · refine ⟨chainProduct 11 (i + 1), ?_, ?_⟩
      · have h := chainDB_findProduct 11 (i + 1) (by omega)
        have hcongr : findProduct C3db ((i + 1 : Nat) : Int)
            = findProduct (chainDB 11) ((i + 1 : Nat) : Int) :=
          findProduct_congr C3db (chainDB 11) rfl _
        rw [hcongr]; exact h
      · simp only [chainProduct]
        rw [if_neg (by omega), if_pos (by omega)]
  obtain ⟨e, he⟩ := explode_fuel_chain_error C3db 11
    (fun i => ((i : Nat) : Int)) 12 0 1 (by omega) hchain
  have hroot : explode_bom_recursive C3db 0 1 0 = Except.error e := by
    rw [explode_bom_recursive_zero]
    simpa using he
  have hfg : finished_goods C3db = [chainProduct 11 0] := by
    unfold finished_goods
    show ((List.range 13).map (chainProduct 11)).filter
      (fun p => p.ptype == "finished_good" && p.active) = [chainProduct 11 0]
    apply range_map_filter (chainProduct 11) _ 13 0 (by omega)
    intro j hj
    by_cases hj0 : j = 0
    · subst hj0; simp [chainProduct]
    · simp only [chainProduct, hj0, if_false]
      by_cases hj11 : j ≤ 11 <;> simp [hj11, hj0]
  have hdemand : get_demand_forecast C3db 0 ((chainProduct 11 0).id) 1 = [(0, 1)] := by
    show get_demand_forecast C3db 0 ((0 : Nat) : Int) 1 = [(0, 1)]
    norm_num [get_demand_forecast, demandLookup, C3db, List.find?, List.range_succ]
  have hbom : explode_bom C3db ((chainProduct 11 0).id)
      (get_demand_forecast C3db 0 ((chainProduct 11 0).id) 1) = Except.error e := by
    rw [hdemand]
    have hid : (chainProduct 11 0).id = ((0 : Nat) : Int) := rfl
    rw [hid]
    norm_num [explode_bom, List.foldl]
    simp [hroot]
  have htot : compute_total_reqs C3db 0 1 = Except.error e := by
    unfold compute_total_reqs
    rw [hfg]
    simp only [List.foldl_cons, List.foldl_nil]
    rw [hbom]
  refine ⟨e, ?_⟩
  unfold calculate_mrp
  rw [htot]

/-- C3 (amended): a run that fails after it starts leaves the `MRPResult`
table **empty**, not unchanged: the delete of the previous rows is committed
in its own transaction before explosion begins, and the rebuilt rows are
only committed at the very end, so a failed run destroys the previous
results while committing no partial rebuild. -/
theorem C3_failed_run_leaves_table_empty :
    ∀ (db : DB) (today : Int) (days : Nat) (e : String),
      (calculate_mrp db today days).2 = Except.error e →
      (calculate_mrp db today days).1 = [] := by
  intro db today days e h
  unfold calculate_mrp at h ⊢
  cases htr : compute_total_reqs db today days with
  | error e₀ => rfl
  | ok total =>
    rw [htr] at h
    simp at h

/-- C3 counterexample: on `C3db` — whose `mrp_results` table still holds one
row from a previous successful run — the failing run commits an **empty**
table: the previously committed row does not survive, refuting the claim
that a failed run leaves the previous `MRPResult` rows unchanged. -/
theorem C3_counterexample_failed_run_clears_table :
    (calculate_mrp C3db 0 1).1 = [] ∧
    (calculate_mrp C3db 0 1).2.isOk = false ∧
    C3db.mrp_results
      = [{ product_id := 99, result_date := 0, projected_onhand := 5,
           needs_ordering := false, shortage_date := none }] := by
  obtain ⟨e, he⟩ := C3db_run_fails
  refine ⟨C3_failed_run_leaves_table_empty C3db 0 1 e he, ?_, rfl⟩
  rw [he]
  rfl

/-- C3 witness: the amended theorem applied to the failing run on `C3db`. -/
theorem C3_failed_run_leaves_table_empty_witness :
    (calculate_mrp C3db 0 1).1 = [] := by
  obtain ⟨e, he⟩ := C3db_run_fails
  exact C3_failed_run_leaves_table_empty C3db 0 1 e he

/-- An error accumulator is absorbing for any exception-threading fold. -/
theorem foldl_error_absorb {α β : Type} (step : Except String β → α → Except String β)
    (habs : ∀ e a, step (Except.error e) a = Except.error e) :
    ∀ (l : List α) (e : String), l.foldl step (Except.error e) = Except.error e := by
  intro l
  induction l with
  | nil => intro e; rfl
  | cons a rest ih =>
    intro e
    rw [List.foldl_cons, habs]
    exact ih e

theorem mem_keys_dictSet {κ α : Type} [DecidableEq κ] (m : List (κ × α)) (k : κ)
    (v : α) (x : κ) :
    x ∈ (dictSet m k v).map Prod.fst ↔ k = x ∨ x ∈ m.map Prod.fst := by
  rw [← dictMem_iff_mem_keys, dictMem_dictSet, dictMem_iff_mem_keys]

/-- Keys of the per-day explosion merge come from the accumulator or from
the explosion result. -/
theorem day_merge_keys (daily_reqs : List (Int × ℚ)) (dd1 : Nat) :
    ∀ (cr : List (Int × List (Nat × ℚ))) (x : Int),
      x ∈ ((daily_reqs.foldl
        (fun cr (kv : Int × ℚ) =>
          dictSet cr kv.1 (dictSet (dictGetD cr kv.1 []) dd1 kv.2)) cr).map Prod.fst) →
      x ∈ cr.map Prod.fst ∨ x ∈ daily_reqs.map Prod.fst := by
  induction daily_reqs with
  | nil => intro cr x h; exact Or.inl h
  | cons kv rest ih =>
    intro cr x h
    rw [List.foldl_cons] at h
    rcases ih _ x h with h₁ | h₂
    · rcases (mem_keys_dictSet cr kv.1 _ x).mp h₁ with heq | hmem
      · exact Or.inr (by simp [heq])
      · exact Or.inl hmem
    · exact Or.inr (List.mem_cons_of_mem _ h₂)

/-- Keys of `merge_component_reqs` come from the running total or from the
product's component requirements. -/
theorem merge_component_reqs_keys (cr : List (Int × List (Nat × ℚ))) :
    ∀ (total : List (Int × List (Nat × ℚ))) (x : Int),
      x ∈ (merge_component_reqs total cr).map Prod.fst →
      x ∈ total.map Prod.fst ∨ x ∈ cr.map Prod.fst := by
  induction cr with
  | nil => intro total x h; exact Or.inl h
  | cons cd rest ih =>
    intro total x h
    unfold merge_component_reqs at h
    rw [List.foldl_cons] at h
    rcases ih _ x h with h₁ | h₂
    · rcases (mem_keys_dictSet total cd.1 _ x).mp h₁ with heq | hmem
      · exact Or.inr (by simp [heq])
      · exact Or.inl hmem
    · exact Or.inr (List.mem_cons_of_mem _ h₂)

/-- Keys of a successful `explode_bom` arise from a day with positive demand
whose recursive explosion contains the key. -/
theorem explode_bom_keys (db : DB) (pid : Int) :
    ∀ (demand_data : List (Nat × ℚ)) (init cr : List (Int × List (Nat × ℚ))),
      demand_data.foldl
        (fun acc (dd : Nat × ℚ) =>
          match acc with
          | Except.error e => Except.error e
          | Except.ok component_requirements =>
            if dd.2 > 0 then
              match explode_bom_recursive db pid dd.2 0 with
              | Except.error e => Except.error e
              | Except.ok daily_reqs =>
                Except.ok (daily_reqs.foldl
                  (fun cr (kv : Int × ℚ) =>
                    dictSet cr kv.1 (dictSet (dictGetD cr kv.1 []) dd.1 kv.2))
                  component_requirements)
            else Except.ok component_requirements)
        (Except.ok init) = Except.ok cr →
      ∀ x, x ∈ cr.map Prod.fst →
        x ∈ init.map Prod.fst ∨
        ∃ dd ∈ demand_data, dd.2 > 0 ∧
          ∃ m, explode_bom_recursive db pid dd.2 0 = Except.ok m ∧
            x ∈ m.map Prod.fst := by
  intro demand_data
  induction demand_data with
  | nil =>
    intro init cr h x hx
    simp only [List.foldl_nil, Except.ok.injEq] at h
    subst h
    exact Or.inl hx
  | cons dd rest ih =>
    intro init cr h x hx
    rw [List.foldl_cons] at h
    by_cases hq : dd.2 > 0
    · simp only [hq, if_true] at h
      cases hexp : explode_bom_recursive db pid dd.2 0 with
      | error e =>
        rw [hexp] at h
        rw [foldl_error_absorb _ (fun _ _ => rfl)] at h
        cases h
      | ok daily_reqs =>
        rw [hexp] at h
        rcases ih _ cr h x hx with h₁ | ⟨dd', hdd', hq', m, hm, hxm⟩
        · rcases day_merge_keys daily_reqs dd.1 init x h₁ with h₂ | h₃
          · exact Or.inl h₂
          · exact Or.inr ⟨dd, List.mem_cons_self _ _, hq, daily_reqs, hexp, h₃⟩
        · exact Or.inr ⟨dd', List.mem_cons_of_mem _ hdd', hq', m, hm, hxm⟩
    · simp only [hq, if_false] at h
      rcases ih _ cr h x hx with h₁ | ⟨dd', hdd', hq', m, hm, hxm⟩
      · exact Or.inl h₁
      · exact Or.inr ⟨dd', List.mem_cons_of_mem _ hdd', hq', m, hm, hxm⟩

/-- Keys of a successful `compute_total_reqs` fold arise from some processed
finished good whose `explode_bom` result contains the key. -/
theorem compute_total_reqs_keys (db : DB) (today : Int) (days : Nat) :
    ∀ (l : List Product) (init total : List (Int × List (Nat × ℚ))),
      l.foldl
        (fun acc (product : Product) =>
          match acc with
          | Except.error e => Except.error e
          | Except.ok total =>
            match explode_bom db product.id
                (get_demand_forecast db today product.id days) with
            | Except.error e => Except.error e
            | Except.ok component_reqs =>
              Except.ok (merge_component_reqs total component_reqs))
        (Except.ok init) = Except.ok total →
      ∀ x, x ∈ total.map Prod.fst →
        x ∈ init.map Prod.fst ∨
        ∃ p ∈ l, ∃ cr, explode_bom db p.id
            (get_demand_forecast db today p.id days) = Except.ok cr ∧
          x ∈ cr.map Prod.fst := by
  intro l
  induction l with
  | nil =>
    intro init total h x hx
    simp only [List.foldl_nil, Except.ok.injEq] at h
    subst h
    exact Or.inl hx
  | cons p rest ih =>
    intro init total h x hx
    rw [List.foldl_cons] at h
    cases hexp : explode_bom db p.id (get_demand_forecast db today p.id days) with
    | error e =>
      simp only [hexp] at h
      rw [foldl_error_absorb _ (fun _ _ => rfl)] at h
      cases h
    | ok cr =>
      simp only [hexp] at h
      rcases ih _ total h x hx with h₁ | ⟨p', hp', cr', hcr', hxcr'⟩
      · rcases merge_component_reqs_keys cr init x h₁ with h₂ | h₃
        · exact Or.inl h₂
        · exact Or.inr ⟨p, List.mem_cons_self _ _, cr, hexp, h₃⟩
      · exact Or.inr ⟨p', List.mem_cons_of_mem _ hp', cr', hcr', hxcr'⟩

/-- Entries of the demand-forecast dict: day offsets below the horizon with
the looked-up demand quantity. -/
theorem mem_get_demand_forecast (db : DB) (today : Int) (pid : Int) (days : Nat)
    (off : Nat) (q : ℚ) (h : (off, q) ∈ get_demand_forecast db today pid days) :
    off < days ∧ q = demandLookup db pid (today + (off : Int)) := by
  unfold get_demand_forecast at h
  obtain ⟨k, hk, heq⟩ := List.mem_map.mp h
  obtain ⟨h1, h2⟩ := Prod.mk.injEq .. ▸ heq
  subst h1
  exact ⟨List.mem_range.mp hk, h2.symm⟩

/-- Appending demand rows for other products leaves a product's demand
lookup unchanged. -/
theorem demandLookup_append_ne (db : DB) (extra : List DailyDemand) (pid : Int)
    (d : Int) (h : ∀ r ∈ extra, r.product_id ≠ pid) :
    demandLookup { db with daily_demand := db.daily_demand ++ extra } pid d
      = demandLookup db pid d := by
  unfold demandLookup
  have hdd : ({ db with daily_demand := db.daily_demand ++ extra } : DB).daily_demand
      = db.daily_demand ++ extra := rfl
  rw [hdd, List.find?_append]
  have hnone : extra.find? (fun r => r.product_id == pid && r.demand_date == d)
      = none := by
    rw [List.find?_eq_none]
    intro r hr
    simp [h r hr]
  rw [hnone]
  cases db.daily_demand.find? (fun r => r.product_id == pid && r.demand_date == d) with
  | none => rfl
  | some r => rfl

theorem get_demand_forecast_append_ne (db : DB) (extra : List DailyDemand)
    (today : Int) (pid : Int) (days : Nat) (h : ∀ r ∈ extra, r.product_id ≠ pid) :
    get_demand_forecast { db with daily_demand := db.daily_demand ++ extra } today pid days
      = get_demand_forecast db today pid days := by
  unfold get_demand_forecast
  apply List.map_congr_left
  intro k _
  rw [demandLookup_append_ne db extra pid _ h]

theorem compute_total_reqs_append_ne (db : DB) (extra : List DailyDemand)
    (today : Int) (days : Nat)
    (h : ∀ r ∈ extra, ∀ fg ∈ finished_goods db, r.product_id ≠ fg.id) :
    compute_total_reqs { db with daily_demand := db.daily_demand ++ extra } today days
      = compute_total_reqs db today days := by
  unfold compute_total_reqs
  have hfg : finished_goods { db with daily_demand := db.daily_demand ++ extra }
      = finished_goods db := rfl
  rw [hfg]
  apply foldl_congr_fun
  intro product hp acc
  cases acc with
  | error e => rfl
  | ok total =>
    simp only
    rw [get_demand_forecast_append_ne db extra today product.id days
        (fun r hr => h r hr product hp),
      explode_bom_congr { db with daily_demand := db.daily_demand ++ extra } db rfl rfl]

/-- Appending forecast rows whose product is not an active finished good
leaves the whole run unchanged. -/
theorem calculate_mrp_append_ne (db : DB) (extra : List DailyDemand)
    (today : Int) (days : Nat)
    (h : ∀ r ∈ extra, ∀ fg ∈ finished_goods db, r.product_id ≠ fg.id) :
    calculate_mrp { db with daily_demand := db.daily_demand ++ extra } today days
      = calculate_mrp db today days := by
  unfold calculate_mrp
  rw [compute_total_reqs_append_ne db extra today days h]
  have hfg : finished_goods { db with daily_demand := db.daily_demand ++ extra }
      = finished_goods db := rfl
  rw [hfg]
  cases compute_total_reqs db today days with
  | error e => rfl
  | ok total =>
    simp only
    have hfold : ∀ (init : List MRPResult × List ShortageRec),
        total.foldl
          (fun (acc : List MRPResult × List ShortageRec) (cd : Int × List (Nat × ℚ)) =>
            let pr := project_component { db with daily_demand := db.daily_demand ++ extra }
              today days cd.1 cd.2
            (acc.1 ++ pr.1, acc.2 ++ pr.2)) init
        = total.foldl
          (fun (acc : List MRPResult × List ShortageRec) (cd : Int × List (Nat × ℚ)) =>
            let pr := project_component db today days cd.1 cd.2
            (acc.1 ++ pr.1, acc.2 ++ pr.2)) init := by
      intro init
      apply foldl_congr_fun
      intro cd _ acc
      simp only
      rw [project_component_congr { db with daily_demand := db.daily_demand ++ extra }
        db rfl rfl]
    rw [hfold]

/-- C10: rows are derived exclusively from active finished goods.  First
half: every committed row's component was reached by the recursive BOM
explosion of some **active finished good** with positive forecast demand on
some day of the horizon.  Second half: adding forecast rows for any product
that is not an active finished good (an inactive finished good, a
sub-assembly, a component, a raw material) changes nothing in the run. -/
theorem C10_rows_only_from_active_finished_goods :
    (∀ (db : DB) (today : Int) (days : Nat) (row : MRPResult),
      row ∈ (calculate_mrp db today days).1 →
      ∃ fg ∈ db.products, fg.ptype = "finished_good" ∧ fg.active = true ∧
        ∃ off < days, 0 < demandLookup db fg.id (today + (off : Int)) ∧
          ∃ m, explode_bom_recursive db fg.id
              (demandLookup db fg.id (today + (off : Int))) 0 = Except.ok m ∧
            row.product_id ∈ m.map Prod.fst) ∧
    (∀ (db : DB) (extra : List DailyDemand) (today : Int) (days : Nat),
      (∀ r ∈ extra, ∀ fg ∈ db.products, fg.ptype = "finished_good" →
        fg.active = true → r.product_id ≠ fg.id) →
      calculate_mrp { db with daily_demand := db.daily_demand ++ extra } today days
        = calculate_mrp db today days) := by
  constructor
  · intro db today days row hrow
    unfold calculate_mrp at hrow
    cases htr : compute_total_reqs db today days with
    | error e => rw [htr] at hrow; cases hrow
    | ok total =>
      rw [htr] at hrow
      rcases mem_calculate_rows db today days total ([], []) row hrow with h | ⟨cd, hcd, hrowcd⟩
      · cases h
      · have hpid : row.product_id = cd.1 :=
          (project_component_rows_prop db today days cd.1 cd.2 row hrowcd).1
        have hkey : cd.1 ∈ total.map Prod.fst := List.mem_map_of_mem Prod.fst hcd
        unfold compute_total_reqs at htr
        rcases compute_total_reqs_keys db today days (finished_goods db) [] total htr
            cd.1 hkey with h | ⟨p, hp, cr, hcr, hxcr⟩
        · cases h
        · have hpfg := List.mem_filter.mp hp
          have hptype : p.ptype = "finished_good" ∧ p.active = true := by
            have := hpfg.2
            simp at this
            exact this
          unfold explode_bom at hcr
          rcases explode_bom_keys db p.id
              (get_demand_forecast db today p.id days) [] cr hcr cd.1 hxcr with h | ⟨dd, hdd, hq, m, hm, hxm⟩
          · cases h
          · obtain ⟨hoff, hval⟩ :=
              mem_get_demand_forecast db today p.id days dd.1 dd.2 hdd
            refine ⟨p, hpfg.1, hptype.1, hptype.2, dd.1, hoff, ?_, m, ?_, ?_⟩
            · rw [← hval]; exact hq
            · rw [← hval]; exact hm
            · rw [hpid]; exact hxm
  · intro db extra today days h
    apply calculate_mrp_append_ne
    intro r hr fg hfg
    have hf := List.mem_filter.mp hfg
    have : fg.ptype = "finished_good" ∧ fg.active = true := by
      have := hf.2
      simp at this
      exact this
    exact h r hr fg hf.1 this.1 this.2

/-- The day-0 row of the `C1db` run (used as a concrete committed row). -/
def C10row : MRPResult where
  product_id := 2
  result_date := 0
  projected_onhand := 0
  needs_ordering := false
  shortage_date := none

/-- C10 witness: the origin half applied to the day-0 row of the `C1db` run,
and the frame half applied to an extra forecast row attached to the
component `2` (not a finished good). -/
theorem C10_rows_only_from_active_finished_goods_witness :
    (∃ fg ∈ C1db.products, fg.ptype = "finished_good" ∧ fg.active = true ∧
      ∃ off : Nat, off < 3 ∧ 0 < demandLookup C1db fg.id (0 + (off : Int)) ∧
        ∃ m, explode_bom_recursive C1db fg.id
            (demandLookup C1db fg.id (0 + (off : Int))) 0 = Except.ok m ∧
          C10row.product_id ∈ m.map Prod.fst) ∧
    calculate_mrp { C1db with daily_demand := C1db.daily_demand ++
        [{ product_id := 2, demand_date := 0, quantity := 99 }] } 0 3
      = calculate_mrp C1db 0 3 := by
  constructor
  · exact C10_rows_only_from_active_finished_goods.1 C1db 0 3 C10row
      (by rw [C1db_rows]; exact List.mem_cons_self _ _)
  · apply C10_rows_only_from_active_finished_goods.2 C1db
      [{ product_id := 2, demand_date := 0, quantity := 99 }] 0 3
    intro r hr fg hfg h1 _
    rw [List.mem_singleton] at hr
    subst hr
    rcases List.mem_cons.mp hfg with rfl | h2
    · show (2 : Int) ≠ 1
      decide
    · rcases List.mem_cons.mp h2 with rfl | h3
      · exfalso
        simp at h1
      · cases h3

/-! ## `MRPEngine.get_shortages` (mrp.py lines 259–328) -/

/-- `schemas.ShortageAlert` (the display-only code/name strings are omitted). -/
structure ShortageAlert where
  product_id : Int
  on_hand : ℚ
  shortage_date : Int
  order_by_date : Int
  reorder_point : ℚ
  reorder_qty : ℚ
  recommended_order_qty : ℚ
  lead_time_days : Int
deriving DecidableEq

/-- One step of the grouping loop (mrp.py 279–283): the first row seen for a
product is kept, and a later row replaces it only when its `result_date` is
strictly earlier. -/
def group_step (acc : List (Int × MRPResult)) (result : MRPResult) :
    List (Int × MRPResult) :=
  match dictGet? acc result.product_id with
  | none => dictSet acc result.product_id result
  | some existing =>
    if result.result_date < existing.result_date then
      dictSet acc result.product_id result
    else acc

/-- The `product_shortages` dictionary (mrp.py 277–283). -/
def group_shortages (results : List MRPResult) : List (Int × MRPResult) :=
  results.foldl group_step []

/-- The alert built for one grouped row (mrp.py 286–323). On our non-nullable
fields `lead_time_days or 0`, `reorder_qty or Decimal(0)` and
`minimum_order_qty or Decimal(0)` are identities, while
`order_multiple or Decimal(1)` maps a zero multiple to `1` (`Decimal(0)` is
falsy in Python). -/
def mk_shortage_alert (db : DB) (result : MRPResult) (product : Product) :
    ShortageAlert :=
  let lead_time := product.lead_time_days
  let shortage_date := result.shortage_date.getD result.result_date
  { product_id := product.id
    on_hand := match findInventory db result.product_id with
      | some inv => inv.on_hand
      | none => 0
    shortage_date := shortage_date
    order_by_date := shortage_date - lead_time
    reorder_point := product.reorder_point
    reorder_qty := product.reorder_qty
    recommended_order_qty := round_up_to_lot_size product.reorder_qty
      (if product.order_multiple = 0 then 1 else product.order_multiple)
      product.minimum_order_qty
    lead_time_days := lead_time }

/-- One step of the alert-building loop (mrp.py 286–323). A grouped row whose
product id matches no product row is skipped (on such a foreign-key violation
the Python ORM relationship lookup fails rather than producing an alert). -/
def build_step (db : DB) (today : Int) (days : Nat)
    (acc : List ShortageAlert) (pr : Int × MRPResult) : List ShortageAlert :=
  match findProduct db pr.2.product_id with
  | none => acc
  | some product =>
    if (mk_shortage_alert db pr.2 product).order_by_date ≤ today + (days : Int)
    then acc ++ [mk_shortage_alert db pr.2 product]
    else acc

/-- `MRPEngine.get_shortages(days)` (mrp.py 259–328): keep the committed
`mrp_results` rows with `needs_ordering` set and `result_date` within the
horizon, group them keeping the earliest row per product, build one alert per
grouped row whose `order_by_date` falls within the horizon, and sort by
`order_by_date` (Python's stable sort). -/
def get_shortages (db : DB) (today : Int) (days : Nat) : List ShortageAlert :=
  let cutoff_date := today + (days : Int)
  let shortage_results := db.mrp_results.filter
    (fun r => r.needs_ordering && decide (r.result_date ≤ cutoff_date))
  let product_shortages := group_shortages shortage_results
  let shortages := product_shortages.foldl (build_step db today days) []
  shortages.mergeSort (fun a b => decide (a.order_by_date ≤ b.order_by_date))

/-! ### Dictionary lemmas for the grouping loop -/

/-- A successful lookup is a binding of the list. -/
theorem dictGet?_mem {κ α : Type} [DecidableEq κ] (m : List (κ × α)) (k : κ)
    (v : α) (h : dictGet? m k = some v) : (k, v) ∈ m := by
  induction m with
  | nil => simp [dictGet?] at h
  | cons hd tl ih =>
    obtain ⟨k₀, v₀⟩ := hd
    by_cases h₀ : k₀ = k
    · subst h₀
      simp [dictGet?] at h
      subst h
      exact List.mem_cons_self _ _
    · simp only [dictGet?, if_neg h₀] at h
      exact List.mem_cons_of_mem _ (ih h)

/-- With distinct keys, a member of `dictSet m k v` is the new binding or an
old binding with a key other than `k`. -/
theorem mem_dictSet_nodup {κ α : Type} [DecidableEq κ] (m : List (κ × α))
    (k : κ) (v : α) (hnd : (m.map Prod.fst).Nodup) (pr : κ × α)
    (hpr : pr ∈ dictSet m k v) : pr = (k, v) ∨ (pr ∈ m ∧ pr.1 ≠ k) := by
  induction m with
  | nil =>
    simp only [dictSet, List.mem_singleton] at hpr
    exact Or.inl hpr
  | cons hd tl ih =>
    obtain ⟨k₀, v₀⟩ := hd
    simp only [List.map_cons, List.nodup_cons] at hnd
    by_cases h₀ : k₀ = k
    · subst h₀
      simp only [dictSet, if_pos rfl] at hpr
      rcases List.mem_cons.mp hpr with heq | h
      · exact Or.inl heq
      · refine Or.inr ⟨List.mem_cons_of_mem _ h, ?_⟩
        intro hk
        exact hnd.1 (hk ▸ List.mem_map_of_mem Prod.fst h)
    · simp only [dictSet, if_neg h₀] at hpr
      rcases List.mem_cons.mp hpr with heq | h
      · subst heq
        exact Or.inr ⟨List.mem_cons_self _ _, h₀⟩
      · rcases ih hnd.2 h with h1 | h2
        · exact Or.inl h1
        · exact Or.inr ⟨List.mem_cons_of_mem _ h2.1, h2.2⟩

/-- With distinct keys, a binding of the list is what lookup returns. -/
theorem dictGet?_of_mem_nodup {κ α : Type} [DecidableEq κ] (m : List (κ × α))
    (k : κ) (v : α) (hnd : (m.map Prod.fst).Nodup) (h : (k, v) ∈ m) :
    dictGet? m k = some v := by
  induction m with
  | nil => cases h
  | cons hd tl ih =>
    obtain ⟨k₀, v₀⟩ := hd
    simp only [List.map_cons, List.nodup_cons] at hnd
    rcases List.mem_cons.mp h with heq | h
    · injection heq with h1 h2
      subst h1
      subst h2
      simp [dictGet?]
    · have hne : k₀ ≠ k := by
        intro hk
        subst hk
        exact hnd.1 (List.mem_map_of_mem Prod.fst h)
      simp [dictGet?, hne, ih hnd.2 h]


theorem group_step_eq_none (acc : List (Int × MRPResult)) (result : MRPResult)
    (h : dictGet? acc result.product_id = none) :
    group_step acc result = dictSet acc result.product_id result := by
  unfold group_step
  rw [h]

theorem group_step_eq_some (acc : List (Int × MRPResult)) (result : MRPResult)
    (existing : MRPResult)
    (h : dictGet? acc result.product_id = some existing) :
    group_step acc result =
      if result.result_date < existing.result_date
      then dictSet acc result.product_id result
      else acc := by
  unfold group_step
  rw [h]

/-- Invariant of the grouping loop: after processing `done` into `acc` and
then folding `rest`, every entry is keyed by its own row's product id, comes
from the processed rows, and is earliest among the processed rows of its
product; every processed row's product has an entry; the keys are distinct. -/
theorem group_fold_spec (rest : List MRPResult) :
    ∀ (acc : List (Int × MRPResult)) (done : List MRPResult),
      ((acc.map Prod.fst).Nodup) →
      (∀ pr ∈ acc, pr.2.product_id = pr.1 ∧ pr.2 ∈ done ∧
        ∀ r ∈ done, r.product_id = pr.1 → pr.2.result_date ≤ r.result_date) →
      (∀ r ∈ done, dictMem acc r.product_id) →
      (((rest.foldl group_step acc).map Prod.fst).Nodup ∧
        (∀ pr ∈ rest.foldl group_step acc, pr.2.product_id = pr.1 ∧
          pr.2 ∈ done ++ rest ∧
          ∀ r ∈ done ++ rest, r.product_id = pr.1 →
            pr.2.result_date ≤ r.result_date) ∧
        (∀ r ∈ done ++ rest, dictMem (rest.foldl group_step acc) r.product_id)) := by
  induction rest with
  | nil =>
    intro acc done hnd hinv hcov
    simp only [List.foldl_nil, List.append_nil]
    exact ⟨hnd, hinv, hcov⟩
  | cons result rest ih =>
    intro acc done hnd hinv hcov
    simp only [List.foldl_cons]
    have hmain :
        ((group_step acc result).map Prod.fst).Nodup ∧
        (∀ pr ∈ group_step acc result, pr.2.product_id = pr.1 ∧
          pr.2 ∈ done ++ [result] ∧
          ∀ r ∈ done ++ [result], r.product_id = pr.1 →
            pr.2.result_date ≤ r.result_date) ∧
        (∀ r ∈ done ++ [result], dictMem (group_step acc result) r.product_id) := by
      cases hg : dictGet? acc result.product_id with
      | none =>
        rw [group_step_eq_none acc result hg]
        refine ⟨dictKeys_nodup_dictSet _ _ _ hnd, ?_, ?_⟩
        · intro pr hpr
          rcases mem_dictSet_nodup acc result.product_id result hnd pr hpr with
            heq | ⟨hpr', hne⟩
          · subst heq
            refine ⟨rfl, List.mem_append.mpr (Or.inr (List.mem_singleton_self _)), ?_⟩
            intro r hr hrid
            rcases List.mem_append.mp hr with hr | hr
            · exfalso
              have hmem := hcov r hr
              have hrid' : r.product_id = result.product_id := hrid
              rw [hrid'] at hmem
              unfold dictMem at hmem
              rw [hg] at hmem
              simp at hmem
            · rw [List.mem_singleton] at hr
              subst hr
              exact le_refl _
          · obtain ⟨hk, hm, hmin⟩ := hinv pr hpr'
            refine ⟨hk, List.mem_append.mpr (Or.inl hm), ?_⟩
            intro r hr hrid
            rcases List.mem_append.mp hr with hr | hr
            · exact hmin r hr hrid
            · rw [List.mem_singleton] at hr
              subst hr
              exact absurd hrid.symm hne
        · intro r hr
          rcases List.mem_append.mp hr with hr | hr
          · exact (dictMem_dictSet _ _ _ _).mpr (Or.inr (hcov r hr))
          · rw [List.mem_singleton] at hr
            subst hr
            exact (dictMem_dictSet _ _ _ _).mpr (Or.inl rfl)
      | some existing =>
        have hmem_ex : (result.product_id, existing) ∈ acc := dictGet?_mem acc _ _ hg
        obtain ⟨hek, hem, hemin⟩ := hinv _ hmem_ex
        rw [group_step_eq_some acc result existing hg]
        by_cases hlt : result.result_date < existing.result_date
        · rw [if_pos hlt]
          refine ⟨dictKeys_nodup_dictSet _ _ _ hnd, ?_, ?_⟩
          · intro pr hpr
            rcases mem_dictSet_nodup acc result.product_id result hnd pr hpr with
              heq | ⟨hpr', hne⟩
            · subst heq
              refine ⟨rfl, List.mem_append.mpr (Or.inr (List.mem_singleton_self _)), ?_⟩
              intro r hr hrid
              rcases List.mem_append.mp hr with hr | hr
              · have hrid' : r.product_id = result.product_id := hrid
                have hex_le : existing.result_date ≤ r.result_date := hemin r hr hrid'
                exact le_trans (le_of_lt hlt) hex_le
              · rw [List.mem_singleton] at hr
                subst hr
                exact le_refl _
            · obtain ⟨hk, hm, hmin⟩ := hinv pr hpr'
              refine ⟨hk, List.mem_append.mpr (Or.inl hm), ?_⟩
              intro r hr hrid
              rcases List.mem_append.mp hr with hr | hr
              · exact hmin r hr hrid
              · rw [List.mem_singleton] at hr
                subst hr
                exact absurd hrid.symm hne
          · intro r hr
            rcases List.mem_append.mp hr with hr | hr
            · exact (dictMem_dictSet _ _ _ _).mpr (Or.inr (hcov r hr))
            · rw [List.mem_singleton] at hr
              subst hr
              exact (dictMem_dictSet _ _ _ _).mpr (Or.inl rfl)
        · rw [if_neg hlt]
          have hle : existing.result_date ≤ result.result_date := not_lt.mp hlt
          refine ⟨hnd, ?_, ?_⟩
          · intro pr hpr
            obtain ⟨hk, hm, hmin⟩ := hinv pr hpr
            refine ⟨hk, List.mem_append.mpr (Or.inl hm), ?_⟩
            intro r hr hrid
            rcases List.mem_append.mp hr with hr | hr
            · exact hmin r hr hrid
            · rw [List.mem_singleton] at hr
              subst hr
              have hv : dictGet? acc pr.1 = some pr.2 := by
                apply dictGet?_of_mem_nodup acc pr.1 pr.2 hnd
                exact hpr
              rw [hrid] at hg
              rw [hg] at hv
              injection hv with hev
              rw [← hev]
              exact hle
          · intro r hr
            rcases List.mem_append.mp hr with hr | hr
            · exact hcov r hr
            · rw [List.mem_singleton] at hr
              subst hr
              unfold dictMem
              rw [hg]
              simp
    have hres := ih (group_step acc result) (done ++ [result])
      hmain.1 hmain.2.1 hmain.2.2
    rw [List.append_assoc, List.singleton_append] at hres
    exact hres

/-- The grouped dictionary: distinct keys, and every entry is an earliest row
of its product among the filtered rows. -/
theorem group_shortages_spec (results : List MRPResult) :
    (((group_shortages results).map Prod.fst).Nodup) ∧
    ∀ pr ∈ group_shortages results, pr.2.product_id = pr.1 ∧ pr.2 ∈ results ∧
      ∀ r ∈ results, r.product_id = pr.1 → pr.2.result_date ≤ r.result_date := by
  have h := group_fold_spec results [] []
    (by simp) (by intro pr hpr; cases hpr) (by intro r hr; cases hr)
  simp only [List.nil_append] at h
  exact ⟨h.1, h.2.1⟩

theorem build_step_eq_none (db : DB) (today : Int) (days : Nat)
    (acc : List ShortageAlert) (pr : Int × MRPResult)
    (h : findProduct db pr.2.product_id = none) :
    build_step db today days acc pr = acc := by
  unfold build_step
  rw [h]

theorem build_step_eq_some (db : DB) (today : Int) (days : Nat)
    (acc : List ShortageAlert) (pr : Int × MRPResult) (product : Product)
    (h : findProduct db pr.2.product_id = some product) :
    build_step db today days acc pr =
      if (mk_shortage_alert db pr.2 product).order_by_date ≤ today + (days : Int)
      then acc ++ [mk_shortage_alert db pr.2 product]
      else acc := by
  unfold build_step
  rw [h]

/-- Every alert produced by the building loop either was already in the
accumulator or is the alert of one of the grouped rows, emitted only when its
order-by date falls within the horizon. -/
theorem build_fold_mem (db : DB) (today : Int) (days : Nat) :
    ∀ (entries : List (Int × MRPResult)) (acc : List ShortageAlert)
      (a : ShortageAlert),
      a ∈ entries.foldl (build_step db today days) acc →
      a ∈ acc ∨ ∃ pr ∈ entries, ∃ product,
        findProduct db pr.2.product_id = some product ∧
        a = mk_shortage_alert db pr.2 product ∧
        a.order_by_date ≤ today + (days : Int) := by
  intro entries
  induction entries with
  | nil =>
    intro acc a h
    exact Or.inl h
  | cons hd tl ih =>
    intro acc a h
    rw [List.foldl_cons] at h
    rcases ih _ a h with h1 | ⟨pr, hpr, product, hfp, haeq, hord⟩
    · cases hfp : findProduct db hd.2.product_id with
      | none =>
        rw [build_step_eq_none db today days acc hd hfp] at h1
        exact Or.inl h1
      | some product =>
        rw [build_step_eq_some db today days acc hd product hfp] at h1
        by_cases hcond :
            (mk_shortage_alert db hd.2 product).order_by_date ≤ today + (days : Int)
        · rw [if_pos hcond] at h1
          rcases List.mem_append.mp h1 with h1a | h1b
          · exact Or.inl h1a
          · rw [List.mem_singleton] at h1b
            subst h1b
            exact Or.inr ⟨hd, List.mem_cons_self _ _, product, hfp, rfl, hcond⟩
        · rw [if_neg hcond] at h1
          exact Or.inl h1
    · exact Or.inr ⟨pr, List.mem_cons_of_mem _ hpr, product, hfp, haeq, hord⟩

/-- If the grouped keys (prefixed by the accumulated alert ids) are distinct,
the alert ids produced by the building loop are distinct. -/
theorem build_fold_ids (db : DB) (today : Int) (days : Nat) :
    ∀ (entries : List (Int × MRPResult)) (acc : List ShortageAlert),
      (∀ pr ∈ entries, pr.2.product_id = pr.1) →
      (acc.map ShortageAlert.product_id ++ entries.map Prod.fst).Nodup →
      ((entries.foldl (build_step db today days) acc).map
        ShortageAlert.product_id).Nodup := by
  intro entries
  induction entries with
  | nil =>
    intro acc _ h
    simpa using h
  | cons hd tl ih =>
    intro acc hkey h
    rw [List.foldl_cons]
    apply ih
    · intro pr hpr
      exact hkey pr (List.mem_cons_of_mem _ hpr)
    · cases hfp : findProduct db hd.2.product_id with
      | none =>
        rw [build_step_eq_none db today days acc hd hfp]
        refine List.Nodup.sublist ?_ h
        apply List.Sublist.append_left
        rw [List.map_cons]
        exact List.sublist_cons_self _ _
      | some product =>
        rw [build_step_eq_some db today days acc hd product hfp]
        by_cases hcond :
            (mk_shortage_alert db hd.2 product).order_by_date ≤ today + (days : Int)
        · rw [if_pos hcond]
          have hid : (mk_shortage_alert db hd.2 product).product_id = hd.1 := by
            have h1 : (mk_shortage_alert db hd.2 product).product_id = product.id := rfl
            rw [h1, findProduct_id db hd.2.product_id product hfp]
            exact hkey hd (List.mem_cons_self _ _)
          rw [List.map_append, List.map_singleton, hid, List.append_assoc,
            List.singleton_append]
          rw [List.map_cons] at h
          exact h
        · rw [if_neg hcond]
          refine List.Nodup.sublist ?_ h
          apply List.Sublist.append_left
          rw [List.map_cons]
          exact List.sublist_cons_self _ _

/-- **C5.** (Corrected form.) `get_shortages` emits at most one alert per
product — the alert product ids are distinct — and every alert stems from an
earliest `needs_ordering` row of its product within the horizon (a row whose
projected balance fell *below the reorder point*, not necessarily below
zero); the alert's `order_by_date` is that row's shortage-or-result date
minus the product's `lead_time_days`, and the alert is emitted only when
`order_by_date ≤ today + days`. -/
theorem C5_one_alert_per_needs_ordering_product :
    ∀ (db : DB) (today : Int) (days : Nat),
      (((get_shortages db today days).map ShortageAlert.product_id).Nodup) ∧
      ∀ a ∈ get_shortages db today days,
        ∃ r ∈ db.mrp_results,
          r.needs_ordering = true ∧
          r.result_date ≤ today + (days : Int) ∧
          (∀ r₂ ∈ db.mrp_results, r₂.needs_ordering = true →
            r₂.result_date ≤ today + (days : Int) →
            r₂.product_id = r.product_id →
            r.result_date ≤ r₂.result_date) ∧
          ∃ product, findProduct db r.product_id = some product ∧
            a = mk_shortage_alert db r product ∧
            a.product_id = r.product_id ∧
            a.shortage_date = r.shortage_date.getD r.result_date ∧
            a.order_by_date = a.shortage_date - product.lead_time_days ∧
            a.order_by_date ≤ today + (days : Int) := by
  intro db today days
  have hdef : get_shortages db today days =
      ((group_shortages (db.mrp_results.filter
          (fun r => r.needs_ordering && decide (r.result_date ≤ today + (days : Int))))).foldl
        (build_step db today days) []).mergeSort
        (fun a b => decide (a.order_by_date ≤ b.order_by_date)) := rfl
  have hgs := group_shortages_spec (db.mrp_results.filter
    (fun r => r.needs_ordering && decide (r.result_date ≤ today + (days : Int))))
  have hperm := List.mergeSort_perm
    ((group_shortages (db.mrp_results.filter
        (fun r => r.needs_ordering && decide (r.result_date ≤ today + (days : Int))))).foldl
      (build_step db today days) [])
    (fun a b => decide (a.order_by_date ≤ b.order_by_date))
  constructor
  · rw [hdef]
    have hids := build_fold_ids db today days
      (group_shortages (db.mrp_results.filter
        (fun r => r.needs_ordering && decide (r.result_date ≤ today + (days : Int)))))
      [] (fun pr hpr => (hgs.2 pr hpr).1) (by simpa using hgs.1)
    exact ((hperm.map ShortageAlert.product_id).nodup_iff).mpr hids
  · intro a ha
    rw [hdef] at ha
    have ha' := hperm.mem_iff.mp ha
    rcases build_fold_mem db today days _ [] a ha' with h0 | ⟨pr, hpr, product, hfp, haeq, hord⟩
    · cases h0
    · obtain ⟨hkey, hmemf, hmin⟩ := hgs.2 pr hpr
      have hf := List.mem_filter.mp hmemf
      have hcond : pr.2.needs_ordering = true ∧ pr.2.result_date ≤ today + (days : Int) := by
        have h2 := hf.2
        simp at h2
        exact h2
      refine ⟨pr.2, hf.1, hcond.1, hcond.2, ?_, product, hfp, haeq, ?_, ?_, ?_, hord⟩
      · intro r₂ hr₂ hn₂ hd₂ hpid₂
        apply hmin r₂
        · exact List.mem_filter.mpr ⟨hr₂, by simp [hn₂, hd₂]⟩
        · rw [hpid₂, hkey]
      · rw [haeq]
        exact findProduct_id db pr.2.product_id product hfp
      · rw [haeq]
        rfl
      · rw [haeq]
        rfl

/-- The single product of the C5 scenario: a component whose reorder point is
`10`. -/
def C5prod : Product where
  id := 1
  ptype := "component"
  active := true
  lead_time_days := 0
  reorder_point := 10
  reorder_qty := 0
  safety_stock := 0
  order_multiple := 1
  minimum_order_qty := 0

/-- The single committed MRP row of the C5 scenario: projected balance `5`,
never negative (`shortage_date` is null), yet `needs_ordering` is set because
`5 < 10`. -/
def C5res : MRPResult where
  product_id := 1
  result_date := 0
  projected_onhand := 5
  needs_ordering := true
  shortage_date := none

/-- A database whose only component never goes negative but sits below its
reorder point. -/
def C5db : DB where
  products := [C5prod]
  bom_lines := []
  inventory := [{ product_id := 1, on_hand := 5 }]
  daily_demand := []
  purchase_orders := []
  weekly_shipments := []
  mrp_results := [C5res]

/-- The alert `get_shortages` emits for `C5db`. -/
def C5alert : ShortageAlert where
  product_id := 1
  on_hand := 5
  shortage_date := 0
  order_by_date := 0
  reorder_point := 10
  reorder_qty := 0
  recommended_order_qty := 0
  lead_time_days := 0

/-- Concrete evaluation of `get_shortages` on `C5db`. -/
theorem C5db_alerts : get_shortages C5db 0 14 = [C5alert] := by
  have h1 : C5db.mrp_results.filter
      (fun r => r.needs_ordering && decide (r.result_date ≤ (0 : Int) + ((14 : Nat) : Int)))
      = [C5res] := by
    simp [C5db, C5res]
  have h2 : group_shortages [C5res] = [(1, C5res)] := by
    simp [group_shortages, group_step, dictGet?, dictSet, C5res]
  have h3 : findProduct C5db (1 : Int) = some C5prod := by
    simp [findProduct, C5db, C5prod]
  have h4 : mk_shortage_alert C5db C5res C5prod = C5alert := by
    simp only [mk_shortage_alert, C5res, C5prod, C5alert]
    norm_num [findInventory, C5db, round_up_to_lot_size]
  have hdef : get_shortages C5db 0 14 =
      ((group_shortages (C5db.mrp_results.filter
          (fun r => r.needs_ordering && decide (r.result_date ≤ (0 : Int) + ((14 : Nat) : Int))))).foldl
        (build_step C5db 0 14) []).mergeSort
        (fun a b => decide (a.order_by_date ≤ b.order_by_date)) := rfl
  rw [hdef, h1, h2]
  rw [List.foldl_cons, List.foldl_nil]
  rw [build_step_eq_some C5db 0 14 [] (1, C5res) C5prod h3]
  rw [h4]
  rw [if_pos (by norm_num [C5alert])]
  simp [List.mergeSort]

/-- Counterexample to the claim as stated: in `C5db` the only committed row
has projected balance `5 ≥ 0` and no shortage date — the component's
projected balance never goes negative within the horizon — yet
`get_shortages` emits an alert for it, because alerts are driven by the
`needs_ordering` flag (balance below the reorder point `10`), not by a
negative balance. -/
theorem C5_counterexample_alert_without_negative_balance :
    (get_shortages C5db 0 14).length = 1 ∧
    C5db.mrp_results.map (fun r => r.projected_onhand) = [5] ∧
    C5db.mrp_results.map (fun r => r.shortage_date) = [none] := by
  refine ⟨?_, ?_, ?_⟩
  · rw [C5db_alerts]
    rfl
  · simp [C5db, C5res]
  · simp [C5db, C5res]

/-- C5 witness: the corrected theorem applied to `C5db` with horizon 14 and
the concrete alert it emits. -/
theorem C5_one_alert_per_needs_ordering_product_witness :
    C5alert ∈ get_shortages C5db 0 14 ∧
    (((get_shortages C5db 0 14).map ShortageAlert.product_id).Nodup) ∧
    ∃ r ∈ C5db.mrp_results,
      r.needs_ordering = true ∧
      r.result_date ≤ (0 : Int) + ((14 : Nat) : Int) ∧
      (∀ r₂ ∈ C5db.mrp_results, r₂.needs_ordering = true →
        r₂.result_date ≤ (0 : Int) + ((14 : Nat) : Int) →
        r₂.product_id = r.product_id →
        r.result_date ≤ r₂.result_date) ∧
      ∃ product, findProduct C5db r.product_id = some product ∧
        C5alert = mk_shortage_alert C5db r product ∧
        C5alert.product_id = r.product_id ∧
        C5alert.shortage_date = r.shortage_date.getD r.result_date ∧
        C5alert.order_by_date = C5alert.shortage_date - product.lead_time_days ∧
        C5alert.order_by_date ≤ (0 : Int) + ((14 : Nat) : Int) := by
  have hmem : C5alert ∈ get_shortages C5db 0 14 := by
    rw [C5db_alerts]
    exact List.mem_singleton_self _
  exact ⟨hmem, (C5_one_alert_per_needs_ordering_product C5db 0 14).1,
    (C5_one_alert_per_needs_ordering_product C5db 0 14).2 C5alert hmem⟩

/-! ## `get_dynamic_reorder_points` (main.py lines 256–390) -/

/-- Python `list.index(x)`: position of the first occurrence of the *value*
`x` (total on our inputs: the searched value is always present). -/
def list_index (l : List ℚ) (x : ℚ) : Nat :=
  match l with
  | [] => 0
  | y :: rest => if y = x then 0 else list_index rest x + 1

/-- `total_weekly_usage.extend([0] * (n - len(total_weekly_usage)))`. -/
def extend_to (l : List ℚ) (n : Nat) : List ℚ :=
  l ++ List.replicate (n - l.length) 0

/-- `total_weekly_usage[i] += q`. -/
def list_add_at (l : List ℚ) (i : Nat) (q : ℚ) : List ℚ :=
  l.set i (l.getD i 0 + q)

/-- The inner loop of main.py 344–357 for one BOM usage of a parent: fold the
parent's weekly goals into the running `total_weekly_usage` list. Each goal is
slotted at `goals.index(weekly_goal)` — the first position holding that
*value* — after padding the list with zeros up to the parent's goal count. -/
def parent_weekly_contrib (goals : List ℚ) (quantity_per : ℚ)
    (total : List ℚ) : List ℚ :=
  goals.foldl
    (fun (t : List ℚ) (weekly_goal : ℚ) =>
      let t2 := if t.length < goals.length then extend_to t goals.length else t
      let week_index := list_index goals weekly_goal
      if week_index < t2.length
      then list_add_at t2 week_index (weekly_goal * quantity_per)
      else t2 ++ [weekly_goal * quantity_per])
    total

/-- `shipments_by_product[pid]` (main.py 278–285): the goals of `pid`'s
shipment rows within the six-week window, in table order. -/
def shipments_goals (db : DB) (current_week_start : Int) (pid : Int) : List ℚ :=
  ((db.weekly_shipments.filter (fun s =>
      decide (s.week_start_date ∈ (List.range 6).map
        (fun i => current_week_start + (i : Int))))).filter
    (fun s => s.product_id == pid)).map (fun s => s.goal)

/-- `total_weekly_usage` for one component (main.py 322–357). A parent with no
shipment rows in the window contributes nothing (`pid in shipments_by_product`
fails); the parent-product lookup of main.py 331–340 only feeds the
display-only `used_in_products` list and is omitted. -/
def total_weekly_usage (db : DB) (current_week_start : Int)
    (component_id : Int) : List ℚ :=
  (db.bom_lines.filter (fun b => b.component_product_id == component_id)).foldl
    (fun (t : List ℚ) (b : BOMLine) =>
      if (shipments_goals db current_week_start b.parent_product_id).isEmpty
      then t
      else parent_weekly_contrib
        (shipments_goals db current_week_start b.parent_product_id)
        b.quantity_per t)
    []

/-- One row of the dynamic reorder-point report (display-only strings and the
`used_in_products` list omitted). -/
structure ReorderPointRow where
  product_id : Int
  current_reorder_point : ℚ
  dynamic_reorder_point : ℚ
  average_weekly_usage : ℚ
  six_week_usage : ℚ
  safety_stock : ℚ
deriving DecidableEq

/-- Python `round(x, 2)`. (Our scenarios avoid the exact half-cent ties where
Python's round-half-to-even differs from rounding half up.) -/
def round2 (q : ℚ) : ℚ := (round (q * 100) : ℤ) / 100

/-- The per-component body of main.py 306–385. -/
def component_reorder_row (db : DB) (current_week_start : Int)
    (component : Product) : ReorderPointRow :=
  if (db.bom_lines.filter
      (fun b => b.component_product_id == component.id)).isEmpty then
    { product_id := component.id
      current_reorder_point := component.reorder_point
      dynamic_reorder_point := 0
      average_weekly_usage := 0
      six_week_usage := 0
      safety_stock := component.safety_stock }
  else
    let t := total_weekly_usage db current_week_start component.id
    let w := (t.filter (fun u => decide (0 < u))).length
    let weeks_with_data : Nat := if w = 0 then 1 else w
    let average_weekly_usage : ℚ :=
      if t.isEmpty then 0
      else (t.foldl (fun (a : ℚ) (u : ℚ) => a + u) 0) / (weeks_with_data : ℚ)
    let six_week_usage := average_weekly_usage * 6
    { product_id := component.id
      current_reorder_point := component.reorder_point
      dynamic_reorder_point := round2 (six_week_usage + component.safety_stock)
      average_weekly_usage := round2 average_weekly_usage
      six_week_usage := round2 six_week_usage
      safety_stock := component.safety_stock }

/-- `get_dynamic_reorder_points` (main.py 256–390): one row per active
component, sorted by dynamic reorder point, highest first (Python's stable
`sort(..., reverse=True)`). -/
def get_dynamic_reorder_points (db : DB) (current_week_start : Int) :
    List ReorderPointRow :=
  ((db.products.filter (fun p => p.ptype == "component" && p.active)).map
    (component_reorder_row db current_week_start)).mergeSort
    (fun a b => decide (b.dynamic_reorder_point ≤ a.dynamic_reorder_point))

/-- Spec-modelled (the claim's wording): the component's demand in calendar
week `w` of the window is the sum over its direct BOM parents of that
parent's shipment goal for week `w` times `quantity_per`. -/
def spec_weekly_demand (db : DB) (current_week_start : Int)
    (component_id : Int) (w : Nat) : ℚ :=
  (db.bom_lines.filter (fun b => b.component_product_id == component_id)).foldl
    (fun (acc : ℚ) (b : BOMLine) =>
      acc + (db.weekly_shipments.foldl
        (fun (g : ℚ) (s : WeeklyShipment) =>
          if s.product_id = b.parent_product_id ∧
              s.week_start_date = current_week_start + (w : Int)
          then g + s.goal else g) 0) * b.quantity_per)
    0

/-- Spec-modelled: sum of the weekly demand over the weeks with nonzero
total, divided by the count of such weeks (`0` when no week has data). -/
def spec_average_weekly_usage (db : DB) (current_week_start : Int)
    (component_id : Int) : ℚ :=
  let weekly := (List.range 6).map
    (spec_weekly_demand db current_week_start component_id)
  let nz := weekly.filter (fun u => decide (u ≠ 0))
  if nz.length = 0 then 0
  else (nz.foldl (fun (a : ℚ) (u : ℚ) => a + u) 0) / ((nz.length : Nat) : ℚ)

/-- Spec-modelled: `dynamic_reorder_point = average_weekly_usage × 6 +
safety_stock`. -/
def spec_dynamic_reorder_point (db : DB) (current_week_start : Int)
    (component : Product) : ℚ :=
  spec_average_weekly_usage db current_week_start component.id * 6 +
    component.safety_stock

/-- The C9 parent: a finished good shipping goal 10 in each of the first two
weeks of the window. -/
def C9parent : Product where
  id := 1
  ptype := "finished_good"
  active := true
  lead_time_days := 0
  reorder_point := 0
  reorder_qty := 0
  safety_stock := 0
  order_multiple := 1
  minimum_order_qty := 0

/-- The C9 component, used once per parent unit. -/
def C9comp : Product where
  id := 2
  ptype := "component"
  active := true
  lead_time_days := 0
  reorder_point := 0
  reorder_qty := 0
  safety_stock := 0
  order_multiple := 1
  minimum_order_qty := 0

/-- The single BOM edge of the C9 scenario. -/
def C9bom : BOMLine where
  parent_product_id := 1
  component_product_id := 2
  quantity_per := 1

/-- Week 0 shipment goal of the C9 parent. -/
def C9w0 : WeeklyShipment where
  product_id := 1
  week_start_date := 0
  goal := 10

/-- Week 1 shipment goal of the C9 parent: the same goal value 10 again. -/
def C9w1 : WeeklyShipment where
  product_id := 1
  week_start_date := 1
  goal := 10

/-- A database in which the parent ships 10 units in week 0 and 10 units in
week 1 — two weeks with data, equal goal values. -/
def C9db : DB where
  products := [C9parent, C9comp]
  bom_lines := [C9bom]
  inventory := []
  daily_demand := []
  purchase_orders := []
  weekly_shipments := [C9w0, C9w1]
  mrp_results := []

/-- **C9.** Refutation of the claimed computation: in `C9db` the parent ships
goal 10 in each of the first two weeks of the window with `quantity_per = 1`,
so by the claim the average weekly usage is `(10 + 10) / 2 = 10` and the
dynamic reorder point `10 × 6 + 0 = 60`; but the code slots *both* weeks at
index `goals.index(10.0) = 0` of `total_weekly_usage`, leaving a single week
with nonzero total `20`, and reports a dynamic reorder point of `120`. -/
theorem C9_dynamic_reorder_point_diverges :
    ((get_dynamic_reorder_points C9db 0).map
      (fun r => (r.product_id, r.dynamic_reorder_point))) = [(2, 120)] ∧
    spec_dynamic_reorder_point C9db 0 C9comp = 60 := by
  constructor
  · have hgoals : shipments_goals C9db 0 1 = [10, 10] := by
      simp [shipments_goals, C9db, C9w0, C9w1, List.range_succ]
    have htot : total_weekly_usage C9db 0 2 = [20, 0] := by
      unfold total_weekly_usage
      have hfil : C9db.bom_lines.filter
          (fun b => b.component_product_id == (2 : Int)) = [C9bom] := by
        simp [C9db, C9bom]
      rw [hfil, List.foldl_cons, List.foldl_nil]
      have hpid : C9bom.parent_product_id = (1 : Int) := rfl
      rw [hpid, hgoals]
      rw [if_neg (by simp)]
      unfold parent_weekly_contrib
      rw [List.foldl_cons, List.foldl_cons, List.foldl_nil]
      norm_num [extend_to, list_index, list_add_at, C9bom, List.getD,
        List.replicate]
    have hrow : component_reorder_row C9db 0 C9comp =
        { product_id := 2
          current_reorder_point := 0
          dynamic_reorder_point := 120
          average_weekly_usage := 20
          six_week_usage := 120
          safety_stock := 0 } := by
      unfold component_reorder_row
      rw [if_neg (by simp [C9db, C9bom, C9comp])]
      have hid : C9comp.id = (2 : Int) := rfl
      rw [hid, htot]
      norm_num [C9comp, round2, round_eq]
    have hcomps : C9db.products.filter
        (fun p => p.ptype == "component" && p.active) = [C9comp] := by
      simp [C9db, C9parent, C9comp]
    unfold get_dynamic_reorder_points
    rw [hcomps, List.map_cons, List.map_nil, hrow]
    simp [List.mergeSort]
  · have hd : ∀ w : Nat, spec_weekly_demand C9db 0 2 w =
        (if w = 0 then 10 else 0) + (if w = 1 then 10 else 0) := by
      intro w
      unfold spec_weekly_demand
      have hfil : C9db.bom_lines.filter
          (fun b => b.component_product_id == (2 : Int)) = [C9bom] := by
        simp [C9db, C9bom]
      rw [hfil, List.foldl_cons, List.foldl_nil]
      have hships : C9db.weekly_shipments = [C9w0, C9w1] := rfl
      rw [hships, List.foldl_cons, List.foldl_cons, List.foldl_nil]
      by_cases h0 : w = 0
      · subst h0
        norm_num [C9w0, C9w1, C9bom]
      · by_cases h1 : w = 1
        · subst h1
          norm_num [C9w0, C9w1, C9bom]
        · have hw0 : ¬((0 : Int) = (w : Int)) := by
            omega
          have hw1 : ¬((1 : Int) = (w : Int)) := by
            omega
          norm_num [C9w0, C9w1, C9bom, hw0, hw1, h0, h1]
  -- assemble the six weekly values and finish the arithmetic
    unfold spec_dynamic_reorder_point spec_average_weekly_usage
    have hcid : C9comp.id = (2 : Int) := rfl
    rw [hcid]
    rw [show (List.range 6) = [0, 1, 2, 3, 4, 5] from rfl]
    rw [List.map_cons, List.map_cons, List.map_cons, List.map_cons,
      List.map_cons, List.map_cons, List.map_nil]
    rw [hd 0, hd 1, hd 2, hd 3, hd 4, hd 5]
    norm_num [C9comp]
